import Mathlib

/-!
# Connection/session core of the open-builder server

A shallow embedding of `src/server/network/server.cpp`.

* The session, status and entity tables are lists; every indexed access of the
  source is bounds-checked here, and an access outside the table (undefined
  behaviour in the C++ program) ends the handler with a `Fault`.
* `m_socket.send` is modelled by the list of datagrams handed to the socket, in
  order; the status the socket reports back is an oracle `sock`.
* `int` counters are `Int`; the casts `static_cast<ClientId>` and
  `static_cast<u8>` are reductions modulo `2^8`, `static_cast<u16>` modulo `2^16`.
* Loops are recursions on the number of iterations that remain. The loop of
  `sendPackets` counts in 16 bits and does not end on a table of more than 65535
  entities; the model yields no result (`none`) there.
* The key masks of `PlayerInput` and the movement mutators of an entity are
  declared outside this file and are parameters here.
* Float components of a transform are only stored and copied by this file, never
  computed with; they are represented by integers (`Scalar`).
-/

namespace server

set_option linter.dupNamespace false

/-! ## Data model -/

/-- Stand-in for one `float` component of a transform. -/
abbrev Scalar := Int

structure Vec3 where
  x : Scalar
  y : Scalar
  z : Scalar
deriving DecidableEq, Repr

/-- Modelled from the spec: the entity header is not part of the sources; the
spec gives a rotation as the two components (yaw, pitch) that the server reads as
`rotation.x` and `rotation.y`. -/
structure Rotation where
  x : Scalar
  y : Scalar
deriving DecidableEq, Repr

structure Transform where
  position : Vec3
  rotation : Rotation
deriving DecidableEq, Repr

/-- Modelled from the spec: `Entity = { alive, transform }`. -/
structure Entity where
  alive : Bool
  transform : Transform
deriving DecidableEq, Repr

inductive ClientStatus where
  | Disconnected
  | Connected
deriving DecidableEq, Repr

/-- Modelled from the spec: per-slot record of remote address (as the integer of
`sf::IpAddress::toInteger`), remote port and last-known input bitmask. -/
structure ClientSession where
  address : Nat
  port : Nat
  keyState : Nat
deriving DecidableEq, Repr

inductive ConnectionResult where
  | Success
  | GameFull
deriving DecidableEq, Repr

/-- One per-entity record of a `WorldState` packet, in the order the fields are
streamed by `sendPackets`. -/
structure EntityRecord where
  entityId : Nat
  px : Scalar
  py : Scalar
  pz : Scalar
  rx : Scalar
  ry : Scalar
deriving DecidableEq, Repr

/-- Server-to-client packets: the command tag followed by the streamed fields.
`ConnectRequestResult` carries the result code and then whatever else was
streamed (slot and capacity on success, nothing on a rejection). -/
inductive Packet where
  | ConnectRequestResult (result : ConnectionResult) (rest : List Nat)
  | PlayerJoin (client : Nat)
  | PlayerLeave (client : Nat)
  | WorldState (count : Nat) (records : List EntityRecord)
deriving DecidableEq, Repr

/-- What one call of `m_socket.send(packet, address, port)` hands to the socket. -/
structure Datagram where
  packet : Packet
  address : Nat
  port : Nat
deriving DecidableEq, Repr

/-- Values of `sf::Socket::Status`. -/
inductive SocketStatus where
  | Done
  | NotReady
  | Partial
  | Disconnected
  | Error
deriving DecidableEq, Repr

/-- An indexed access outside one of the three tables. -/
inductive Fault where
  | statusOutOfRange (index : Int)
  | sessionOutOfRange (index : Int)
  | entityOutOfRange (index : Int)
deriving DecidableEq, Repr

structure Server where
  m_clientSessions : List ClientSession
  m_clientStatuses : List ClientStatus
  m_entities : List Entity
  m_maxConnections : Nat
  m_connections : Int
  m_aliveEntities : Int
deriving DecidableEq, Repr

/-- Result of running a handler: the datagrams handed to the socket, and either
the state the handler leaves or the out-of-range access that ended it. -/
inductive Outcome where
  | done (s : Server) (sent : List Datagram)
  | fault (f : Fault) (sent : List Datagram)
deriving DecidableEq, Repr

/-- Client-to-server commands with their decoded payload. -/
inductive Command where
  | Connect (address port : Nat)
  | Disconnect (client : Nat)
  | PlayerInput (client keyState : Nat) (rx ry : Scalar)
deriving DecidableEq, Repr

/-- The cast `static_cast<ClientId>(slot)`; the slot index travels in one byte
(`ClientId` is taken to be 8 bits wide, like the capacity field next to it; its
declaration is not in the sources). -/
def castClientId (slot : Int) : Nat := (slot % 256).toNat

/-- The cast `static_cast<u8>(m_maxConnections)`. -/
def castU8 (n : Int) : Nat := (n % 256).toNat

/-! ## Construction -/

/-- Modelled from the spec: a value-initialised `ClientSession` (address
`0.0.0.0`, port 0, no key pressed); the struct declaration is not in the
sources. -/
def ClientSession.init : ClientSession := { address := 0, port := 0, keyState := 0 }

/-- Modelled from the spec: a value-initialised entity before the constructor
body runs. -/
def Entity.init : Entity :=
  { alive := false, transform := { position := ⟨0, 0, 0⟩, rotation := ⟨0, 0⟩ } }

/-- The constructor `Server::Server(maxConnections, port)`. The entity table has
`maxConnections + 2` entries and the members `m_maxConnections`,
`m_connections`, `m_aliveEntities` start at `maxConnections`, 0, 0 (member
declarations are not in the sources; sizes and capacity follow the spec). -/
def Server.Server (maxConnections : Nat) : Server :=
  let entities := (List.replicate (maxConnections + 2) Entity.init).map
    (fun entity => { entity with alive := true })
  let entities := match entities[maxConnections + 1]? with
    | some e => entities.set (maxConnections + 1) { e with alive := true }
    | none => entities
  let entities := match entities[maxConnections + 1]? with
    | some e => entities.set (maxConnections + 1)
        { e with transform := { e.transform with position := ⟨20, 1, 20⟩ } }
    | none => entities
  { m_clientSessions := List.replicate maxConnections ClientSession.init
    m_clientStatuses := List.replicate maxConnections ClientStatus.Disconnected
    m_entities := entities
    m_maxConnections := maxConnections
    m_connections := 0
    m_aliveEntities := 0 }

/-! ## Operations -/

/-- Loop of `findEmptySlot`: `n` iterations remain, the loop variable is `i`. -/
def findEmptySlotFrom (statuses : List ClientStatus) : Nat → Nat → Except Fault Int
  | 0, _ => .ok (-1)
  | n + 1, i =>
    match statuses[i]? with
    | none => .error (.statusOutOfRange i)
    | some .Disconnected => .ok i
    | some .Connected => findEmptySlotFrom statuses n (i + 1)

/-- The method `Server::findEmptySlot`. -/
def findEmptySlot (s : Server) : Except Fault Int :=
  findEmptySlotFrom s.m_clientStatuses s.m_maxConnections 0

/-- The method `Server::sendToClient`: the returned flag and the datagrams handed to the
socket (at most one). -/
def sendToClient (sock : Datagram → SocketStatus) (s : Server) (id : Nat) (packet : Packet) :
    Except Fault (Bool × List Datagram) :=
  match s.m_clientStatuses[id]? with
  | none => .error (.statusOutOfRange id)
  | some .Connected =>
    match s.m_clientSessions[id]? with
    | none => .error (.sessionOutOfRange id)
    | some session =>
      let d : Datagram := ⟨packet, session.address, session.port⟩
      .ok (decide (sock d = SocketStatus.Done), [d])
  | some .Disconnected => .ok (false, [])

/-- Loop of `sendToAllClients`: `n` iterations remain, the loop variable is `i`,
an `int` that the call converts to the `ClientId` parameter of `sendToClient`.
Returns what was handed to the socket and the fault that ended the loop, if
any. -/
def sendToAllClientsFrom (sock : Datagram → SocketStatus) (s : Server) (packet : Packet) :
    Nat → Nat → List Datagram × Option Fault
  | 0, _ => ([], none)
  | n + 1, i =>
    match sendToClient sock s (castClientId (i : Int)) packet with
    | .error f => ([], some f)
    | .ok (_, ds) =>
      let r := sendToAllClientsFrom sock s packet n (i + 1)
      (ds ++ r.1, r.2)

/-- The method `Server::sendToAllClients`. -/
def sendToAllClients (sock : Datagram → SocketStatus) (s : Server) (packet : Packet) :
    List Datagram × Option Fault :=
  sendToAllClientsFrom sock s packet s.m_maxConnections 0

/-- The lambda `sendRejection` of `handleIncomingConnection`: the datagram it
hands to the socket. -/
def sendRejection (result : ConnectionResult) (address port : Nat) : Datagram :=
  ⟨Packet.ConnectRequestResult result [], address, port⟩

/-- The method `Server::handleIncomingConnection`. Statements are kept in source
order: when `slot < 0` the rejection is sent and control then continues with the
response packet and the table writes, the first of which is outside the status
table for a negative `slot`. -/
def handleIncomingConnection (sock : Datagram → SocketStatus) (s : Server)
    (clientAddress clientPort : Nat) : Outcome :=
  if s.m_clientSessions.any
      (fun endpoint => clientAddress == endpoint.address && clientPort == endpoint.port) then
    .done s []
  else if s.m_connections < (s.m_maxConnections : Int) then
    match findEmptySlot s with
    | .error f => .fault f []
    | .ok slot =>
      let rejected : List Datagram :=
        if slot < 0 then [sendRejection .GameFull clientAddress clientPort] else []
      let responsePacket :=
        Packet.ConnectRequestResult .Success [castClientId slot, castU8 s.m_maxConnections]
      if slot < 0 then .fault (.statusOutOfRange slot) rejected
      else
        let k := slot.toNat
        if hk : k < s.m_clientStatuses.length then
          let statuses := s.m_clientStatuses.set k ClientStatus.Connected
          if hs : k < s.m_clientSessions.length then
            let sessions := s.m_clientSessions.set k
              { s.m_clientSessions[k] with address := clientAddress, port := clientPort }
            if he : k < s.m_entities.length then
              let entity := s.m_entities[k]
              let entities := s.m_entities.set k
                { alive := true
                  transform := { entity.transform with position := ⟨10, 0, 10⟩ } }
              let s1 : Server :=
                { s with
                  m_clientStatuses := statuses
                  m_clientSessions := sessions
                  m_entities := entities
                  m_aliveEntities := s.m_aliveEntities + 1 }
              let sent := rejected ++ [⟨responsePacket, clientAddress, clientPort⟩]
              let s2 : Server := { s1 with m_connections := s1.m_connections + 1 }
              let joinPack := Packet.PlayerJoin (castClientId slot)
              match sendToAllClients sock s2 joinPack with
              | (ds, none) => .done s2 (sent ++ ds)
              | (ds, some f) => .fault f (sent ++ ds)
            else .fault (.entityOutOfRange slot) rejected
          else .fault (.sessionOutOfRange slot) rejected
        else .fault (.statusOutOfRange slot) rejected
  else
    .done s [sendRejection .GameFull clientAddress clientPort]

/-- The method `Server::handleDisconnect`, with `client` the slot index read from the
packet. -/
def handleDisconnect (sock : Datagram → SocketStatus) (s : Server) (client : Nat) : Outcome :=
  if client < s.m_clientStatuses.length then
    let statuses := s.m_clientStatuses.set client ClientStatus.Disconnected
    if he : client < s.m_entities.length then
      let entities := s.m_entities.set client { s.m_entities[client] with alive := false }
      let s1 : Server :=
        { s with
          m_clientStatuses := statuses
          m_entities := entities
          m_connections := s.m_connections - 1
          m_aliveEntities := s.m_aliveEntities - 1 }
      let joinPack := Packet.PlayerLeave client
      match sendToAllClients sock s1 joinPack with
      | (ds, none) => .done s1 ds
      | (ds, some f) => .fault f ds
    else .fault (.entityOutOfRange client) []
  else .fault (.statusOutOfRange client) []

/-- The method `Server::handleKeyInput`, with the four fields read from the packet. -/
def handleKeyInput (s : Server) (client keyState : Nat) (rx ry : Scalar) : Outcome :=
  if hs : client < s.m_clientSessions.length then
    let sessions := s.m_clientSessions.set client
      { s.m_clientSessions[client] with keyState := keyState }
    if he : client < s.m_entities.length then
      let entity := s.m_entities[client]
      let entities := s.m_entities.set client
        { entity with transform := { entity.transform with rotation := ⟨rx, ry⟩ } }
      .done { s with m_clientSessions := sessions, m_entities := entities } []
    else .fault (.entityOutOfRange client) []
  else .fault (.sessionOutOfRange client) []

/-- The `switch` of `Server::recievePackets` for one received package. -/
def dispatch (sock : Datagram → SocketStatus) (s : Server) : Command → Outcome
  | .PlayerInput client keyState rx ry => handleKeyInput s client keyState rx ry
  | .Connect address port => handleIncomingConnection sock s address port
  | .Disconnect client => handleDisconnect sock s client

/-- The method `Server::recievePackets` over the packages pending on the socket, oldest
first. -/
def recievePackets (sock : Datagram → SocketStatus) (s : Server) : List Command → Outcome
  | [] => .done s []
  | c :: cs =>
    match dispatch sock s c with
    | .fault f sent => .fault f sent
    | .done s1 sent =>
      match recievePackets sock s1 cs with
      | .done s2 sent2 => .done s2 (sent ++ sent2)
      | .fault f sent2 => .fault f (sent ++ sent2)

/-- The cast `static_cast<u16>(m_entities.size())`. -/
def castU16 (n : Int) : Nat := (n % 65536).toNat

/-- Modelled from the spec: the keys of the `PlayerInput` enumeration, whose
declaration is not in the sources. Each key is one bit of the input bitmask,
given here by its bit position. -/
structure PlayerInput where
  forwardsBit : Nat
  backBit : Nat
  leftBit : Nat
  rightBit : Nat
deriving DecidableEq, Repr

/-- The mask `PlayerInput::Forwards`. -/
def PlayerInput.Forwards (keys : PlayerInput) : Nat := 2 ^ keys.forwardsBit

/-- The mask `PlayerInput::Back`. -/
def PlayerInput.Back (keys : PlayerInput) : Nat := 2 ^ keys.backBit

/-- The mask `PlayerInput::Left`. -/
def PlayerInput.Left (keys : PlayerInput) : Nat := 2 ^ keys.leftBit

/-- The mask `PlayerInput::Right`. -/
def PlayerInput.Right (keys : PlayerInput) : Nat := 2 ^ keys.rightBit

/-- Modelled from the spec: the entity movement mutators, which belong to the
entity model outside this file and are opaque here. -/
structure Movement where
  moveForwards : Entity → Entity
  moveBackwards : Entity → Entity
  moveLeft : Entity → Entity
  moveRight : Entity → Entity

/-- The lambda `isPressed` of `updatePlayers`: `(input & key) == key`. -/
def isPressed (input key : Nat) : Bool := (input &&& key) == key

/-- The two `if`/`else if` chains that `updatePlayers` runs on the entity
`player` of a Connected slot whose stored key state is `input`. -/
def applyKeys (keys : PlayerInput) (mv : Movement) (input : Nat) (player : Entity) : Entity :=
  let player :=
    if isPressed input keys.Forwards then mv.moveForwards player
    else if isPressed input keys.Back then mv.moveBackwards player
    else player
  if isPressed input keys.Left then mv.moveLeft player
  else if isPressed input keys.Right then mv.moveRight player
  else player

/-- Loop of `updatePlayers`: `n` iterations remain, the loop variable is `i`. -/
def updatePlayersFrom (keys : PlayerInput) (mv : Movement) :
    Server → Nat → Nat → Except Fault Server
  | s, 0, _ => .ok s
  | s, n + 1, i =>
    match s.m_clientStatuses[i]? with
    | none => .error (.statusOutOfRange i)
    | some .Connected =>
      match s.m_entities[i]? with
      | none => .error (.entityOutOfRange i)
      | some player =>
        match s.m_clientSessions[i]? with
        | none => .error (.sessionOutOfRange i)
        | some session =>
          updatePlayersFrom keys mv
            { s with m_entities := s.m_entities.set i (applyKeys keys mv session.keyState player) }
            n (i + 1)
    | some .Disconnected => updatePlayersFrom keys mv s n (i + 1)

/-- The method `Server::updatePlayers`. -/
def updatePlayers (keys : PlayerInput) (mv : Movement) (s : Server) : Except Fault Server :=
  updatePlayersFrom keys mv s s.m_maxConnections 0

/-- Loop of `sendPackets`: `n` iterations remain, the loop variable is
`entityId`, which the loop condition keeps below the table size. Returns the
records streamed into the packet. -/
def worldStateRecordsFrom (entities : List Entity) : Nat → Nat → List EntityRecord
  | 0, _ => []
  | n + 1, entityId =>
    match entities[entityId]? with
    | some entity =>
      (if entity.alive then
        [{ entityId := entityId
           px := entity.transform.position.x
           py := entity.transform.position.y
           pz := entity.transform.position.z
           rx := entity.transform.rotation.x
           ry := entity.transform.rotation.y }]
      else []) ++ worldStateRecordsFrom entities n (entityId + 1)
    | none => []

/-- The packet that `sendPackets` builds. The loop counter `entityId` is 16 bits
wide, so for a table of more than 65535 entities it wraps around before it
reaches the size and the loop never ends: no packet (`none`). -/
def worldStatePacket (s : Server) : Option Packet :=
  if s.m_entities.length < 65536 then
    some (Packet.WorldState (castU16 s.m_entities.length)
      (worldStateRecordsFrom s.m_entities s.m_entities.length 0))
  else none

/-- The method `Server::sendPackets`; `none` when its loop does not end. -/
def sendPackets (sock : Datagram → SocketStatus) (s : Server) : Option Outcome :=
  match worldStatePacket s with
  | none => none
  | some statePacket =>
    match sendToAllClients sock s statePacket with
    | (ds, none) => some (.done s ds)
    | (ds, some f) => some (.fault f ds)

/-- Modelled from the spec: the part of one tick that follows the receive phase,
apply the stored input and then broadcast the world state (the loop that calls
the two methods is not in this file). -/
def tick (keys : PlayerInput) (mv : Movement) (sock : Datagram → SocketStatus) (s : Server) :
    Option Outcome :=
  match updatePlayers keys mv s with
  | .error f => some (.fault f [])
  | .ok s1 => sendPackets sock s1

/-! ## Predicates used to state the properties -/

/-- Shape of a server state: the session and status tables have one entry per
slot, the entity table has room for the slots and the two extra entities, and
the capacity fits the one-byte field that carries it on the wire. -/
def wf (s : Server) : Prop :=
  s.m_clientSessions.length = s.m_maxConnections ∧
  s.m_clientStatuses.length = s.m_maxConnections ∧
  s.m_maxConnections + 2 ≤ s.m_entities.length ∧
  s.m_maxConnections < 256

instance (s : Server) : Decidable (wf s) := by
  unfold wf
  infer_instance

/-- The slots whose status is Connected, in ascending order. -/
def connectedSlots (s : Server) : List Nat :=
  (List.range s.m_maxConnections).filter
    (fun i => decide (s.m_clientStatuses[i]? = some ClientStatus.Connected))

/-- The datagrams that deliver `packet` once to every Connected slot, at the
endpoint stored for the slot, in ascending slot order. -/
def toConnected (s : Server) (packet : Packet) : List Datagram :=
  (connectedSlots s).filterMap
    (fun i => (s.m_clientSessions[i]?).map (fun e => (⟨packet, e.address, e.port⟩ : Datagram)))

/-- Number of slots whose status is Connected. -/
def connectedCount (s : Server) : Nat :=
  s.m_clientStatuses.count ClientStatus.Connected

/-- The duplicate-connection guard of `handleIncomingConnection` lets the
endpoint through: no entry of the session table holds it. -/
def notInTable (s : Server) (address port : Nat) : Prop :=
  ∀ e ∈ s.m_clientSessions, ¬ (e.address = address ∧ e.port = port)

instance (s : Server) (address port : Nat) : Decidable (notInTable s address port) := by
  unfold notInTable
  infer_instance

/-- States reached from the constructed server of capacity `N` by commands that
run to completion, each command being allowed by `allowed` in the state it is
applied to. -/
inductive ReachableBy (allowed : Server → Command → Prop) (N : Nat) : Server → Prop where
  | init : ReachableBy allowed N (Server.Server N)
  | step {s s1 : Server} {c : Command} {sent : List Datagram}
      (sock : Datagram → SocketStatus) :
      ReachableBy allowed N s → allowed s c → dispatch sock s c = .done s1 sent →
      ReachableBy allowed N s1

/-- Every command is allowed. -/
def anyCommand : Server → Command → Prop := fun _ _ => True

/-- Commands whose payload slot index lies in `[0, maxConnections)`. -/
def payloadInRange : Server → Command → Prop
  | _, .Connect _ _ => True
  | s, .Disconnect client => client < s.m_maxConnections
  | s, .PlayerInput client _ _ _ => client < s.m_maxConnections

/-- Commands whose payload slot index lies in `[0, maxConnections)` and, for a
Disconnect, names a slot that is Connected. -/
def fromConnectedClient : Server → Command → Prop
  | _, .Connect _ _ => True
  | s, .Disconnect client => s.m_clientStatuses[client]? = some ClientStatus.Connected
  | s, .PlayerInput client _ _ _ => client < s.m_maxConnections

/-- The state left by the assignments of the accepting branch of
`handleIncomingConnection` for slot `k`, whose session and entity were `session`
and `entity`. Used to phrase the lemmas below. -/
def acceptInto (s : Server) (k address port : Nat) (session : ClientSession)
    (entity : Entity) : Server :=
  { s with
    m_clientStatuses := s.m_clientStatuses.set k ClientStatus.Connected
    m_clientSessions := s.m_clientSessions.set k { session with address := address, port := port }
    m_entities := s.m_entities.set k
      { alive := true, transform := { entity.transform with position := ⟨10, 0, 10⟩ } }
    m_aliveEntities := s.m_aliveEntities + 1
    m_connections := s.m_connections + 1 }

/-- The state left by the assignments of `handleDisconnect` for slot `client`,
whose entity was `entity`. Used to phrase the lemmas below. -/
def dropSlot (s : Server) (client : Nat) (entity : Entity) : Server :=
  { s with
    m_clientStatuses := s.m_clientStatuses.set client ClientStatus.Disconnected
    m_entities := s.m_entities.set client { entity with alive := false }
    m_connections := s.m_connections - 1
    m_aliveEntities := s.m_aliveEntities - 1 }

/-- The state left by `handleKeyInput` for slot `client`, whose session and
entity were `session` and `entity`. Used to phrase the lemmas below. -/
def withInput (s : Server) (client keyState : Nat) (rx ry : Scalar) (session : ClientSession)
    (entity : Entity) : Server :=
  { s with
    m_clientSessions := s.m_clientSessions.set client { session with keyState := keyState }
    m_entities := s.m_entities.set client
      { entity with transform := { entity.transform with rotation := ⟨rx, ry⟩ } } }

/-- The tables of `s` have the sizes the constructor gives them for capacity
`N`. -/
def sized (N : Nat) (s : Server) : Prop :=
  s.m_maxConnections = N ∧ s.m_clientSessions.length = N ∧
  s.m_clientStatuses.length = N ∧ s.m_entities.length = N + 2

/-- The endpoint held by the sessions of a freshly constructed server. -/
def initEndpoint : Nat × Nat := (ClientSession.init.address, ClientSession.init.port)

/-- Connect requests from the given (address, port) pairs, in order. -/
def connects (reqs : List (Nat × Nat)) : List Command :=
  reqs.map (fun r => Command.Connect r.1 r.2)

/-- Shape of a server of capacity `N` in which exactly the slots below `k` are
Connected, the counter is `k`, and every session holds either the initial
endpoint or one of the first `k` endpoints of `reqs`. -/
def filledTo (N : Nat) (reqs : List (Nat × Nat)) (k : Nat) (s : Server) : Prop :=
  sized N s ∧ s.m_connections = (k : Int) ∧
  (∀ j, j < k → s.m_clientStatuses[j]? = some ClientStatus.Connected) ∧
  (∀ j, k ≤ j → j < N → s.m_clientStatuses[j]? = some ClientStatus.Disconnected) ∧
  ∀ e ∈ s.m_clientSessions, (e.address, e.port) = initEndpoint ∨ (e.address, e.port) ∈ reqs.take k

/-- Reference for `applyKeys`, in the words of the spec: on the forward/back
axis the entity receives `moveForwards` once if the Forward bit of the bitmask
is set, otherwise `moveBackwards` once if the Back bit is set; then, on the
left/right axis, `moveLeft` once if the Left bit is set, otherwise `moveRight`
once if the Right bit is set. -/
def applyInputRef (keys : PlayerInput) (mv : Movement) (input : Nat) (e : Entity) : Entity :=
  let e1 :=
    if input.testBit keys.forwardsBit then mv.moveForwards e
    else if input.testBit keys.backBit then mv.moveBackwards e
    else e
  if input.testBit keys.leftBit then mv.moveLeft e1
  else if input.testBit keys.rightBit then mv.moveRight e1
  else e1

/-- Reference for `updatePlayers`, in the words of the spec: the entity of every
Connected slot in `[0, maxConnections)` receives the movement decoded from the
slot's stored bitmask; every other entity, and everything else in the state, is
left as it is. -/
def updatePlayersRef (keys : PlayerInput) (mv : Movement) (s : Server) : Server :=
  { s with
    m_entities :=
      List.zipWith
        (fun i e =>
          match s.m_clientStatuses[i]?, s.m_clientSessions[i]? with
          | some ClientStatus.Connected, some session =>
            if i < s.m_maxConnections then applyInputRef keys mv session.keyState e else e
          | _, _ => e)
        (List.range s.m_entities.length) s.m_entities }

/-- States reached from the constructed server of capacity `N` by client
commands and ticks, in any order, each running to completion. -/
inductive ReachableWithTicks (keys : PlayerInput) (mv : Movement) (N : Nat) : Server → Prop where
  | init : ReachableWithTicks keys mv N (Server.Server N)
  | command {s s1 : Server} {c : Command} {sent : List Datagram}
      (sock : Datagram → SocketStatus) :
      ReachableWithTicks keys mv N s → dispatch sock s c = .done s1 sent →
      ReachableWithTicks keys mv N s1
  | tick {s s1 : Server} {sent : List Datagram} (sock : Datagram → SocketStatus) :
      ReachableWithTicks keys mv N s → tick keys mv sock s = some (.done s1 sent) →
      ReachableWithTicks keys mv N s1

/-- The usual key layout: Forwards, Back, Left, Right are bits 0 to 3. -/
def sampleKeys : PlayerInput := { forwardsBit := 0, backBit := 1, leftBit := 2, rightBit := 3 }

/-- Sample mutators that move an entity by one unit along `z` (forwards and
backwards) or along `x` (left and right). -/
def sampleMovement : Movement :=
  { moveForwards := fun e =>
      { e with transform := { e.transform with position :=
          { e.transform.position with z := e.transform.position.z + 1 } } }
    moveBackwards := fun e =>
      { e with transform := { e.transform with position :=
          { e.transform.position with z := e.transform.position.z - 1 } } }
    moveLeft := fun e =>
      { e with transform := { e.transform with position :=
          { e.transform.position with x := e.transform.position.x - 1 } } }
    moveRight := fun e =>
      { e with transform := { e.transform with position :=
          { e.transform.position with x := e.transform.position.x + 1 } } } }

/-- Entity `e` of slot `j` after one pass of the loop body of `updatePlayers`
over slot `j`. Used to phrase the lemmas below. -/
def stepAt (keys : PlayerInput) (mv : Movement) (s : Server) (j : Nat) (e : Entity) : Entity :=
  match s.m_clientStatuses[j]?, s.m_clientSessions[j]? with
  | some ClientStatus.Connected, some session => applyKeys keys mv session.keyState e
  | _, _ => e

/-! ## Concrete states and inputs used in the examples -/

/-- A socket that reports every send as complete. -/
def sockDone : Datagram → SocketStatus := fun _ => SocketStatus.Done

/-- Capacity 3; slots 0 and 2 are Connected, slot 1 is Disconnected and still
holds the endpoint and key state of its previous client. -/
def sampleServer : Server :=
  { m_clientSessions := [⟨1, 1001, 0⟩, ⟨2, 1002, 5⟩, ⟨3, 1003, 0⟩]
    m_clientStatuses := [.Connected, .Disconnected, .Connected]
    m_entities :=
      [ ⟨true, ⟨⟨10, 0, 10⟩, ⟨0, 0⟩⟩⟩, ⟨false, ⟨⟨12, 0, 9⟩, ⟨1, 2⟩⟩⟩, ⟨true, ⟨⟨10, 0, 10⟩, ⟨0, 0⟩⟩⟩,
        ⟨true, ⟨⟨0, 0, 0⟩, ⟨0, 0⟩⟩⟩, ⟨true, ⟨⟨20, 1, 20⟩, ⟨0, 0⟩⟩⟩ ]
    m_maxConnections := 3
    m_connections := 2
    m_aliveEntities := 2 }

/-- The state after the server of capacity `N` has received `commands` (the
constructed server itself if the run is cut short by a fault). -/
def afterRun (N : Nat) (commands : List Command) : Server :=
  match recievePackets sockDone (Server.Server N) commands with
  | .done s _ => s
  | .fault _ _ => Server.Server N

/-- Capacity 1 after a Disconnect for slot 0 arrived while nobody was connected. -/
def afterStrayDisconnect : Server :=
  { m_clientSessions := [⟨0, 0, 0⟩]
    m_clientStatuses := [.Disconnected]
    m_entities :=
      [ ⟨false, ⟨⟨0, 0, 0⟩, ⟨0, 0⟩⟩⟩, ⟨true, ⟨⟨0, 0, 0⟩, ⟨0, 0⟩⟩⟩, ⟨true, ⟨⟨20, 1, 20⟩, ⟨0, 0⟩⟩⟩ ]
    m_maxConnections := 1
    m_connections := -1
    m_aliveEntities := -1 }

instance (s : Server) (c : Command) : Decidable (payloadInRange s c) := by
  cases c <;> unfold payloadInRange <;> infer_instance

instance (s : Server) (c : Command) : Decidable (fromConnectedClient s c) := by
  cases c <;> unfold fromConnectedClient <;> infer_instance

/-- Same tables as `sampleServer`, with key states 3 (Forwards and Back), 5 and
12 (Left and Right) stored for slots 0, 1 and 2. -/
def inputServer : Server :=
  { sampleServer with m_clientSessions := [⟨1, 1001, 3⟩, ⟨2, 1002, 5⟩, ⟨3, 1003, 12⟩] }

/-- Capacity 1 after client (1, 1001) connected and sent the Forwards key. -/
def forwardsHeld : Server := afterRun 1 [.Connect 1 1001, .PlayerInput 0 1 0 0]

/-- The state `forwardsHeld` after one tick. -/
def forwardsHeldTicked : Server := updatePlayersRef sampleKeys sampleMovement forwardsHeld

/-- Capacity 2 after two clients connected and the first one left. -/
def oneLeft : Server := afterRun 2 [.Connect 1 1001, .Connect 2 1002, .Disconnect 0]

/-- Capacity 1 after client (1, 1001) connected, sent the Forwards key and
left. -/
def leftWithKeyHeld : Server := afterRun 1 [.Connect 1 1001, .PlayerInput 0 1 0 0, .Disconnect 0]

/-- Capacity 1 after client (1, 1001) connected, sent no key and left. -/
def leftWithNoKey : Server := afterRun 1 [.Connect 1 1001, .PlayerInput 0 0 0 0, .Disconnect 0]

/-- Capacity 257 with exactly slots 0 and 256 Connected: the tables after the
257 clients of `crowdEndpoints` connected and those in slots 1 to 255 left. -/
def highSlots : Server :=
  { m_clientSessions := (List.range 257).map (fun i => ⟨i + 1, 1000, 0⟩)
    m_clientStatuses := (List.range 257).map
      (fun i => if i = 0 ∨ i = 256 then ClientStatus.Connected else ClientStatus.Disconnected)
    m_entities := (List.range 259).map
      (fun i =>
        if i = 258 then ⟨true, ⟨⟨20, 1, 20⟩, ⟨0, 0⟩⟩⟩
        else if i = 257 then ⟨true, ⟨⟨0, 0, 0⟩, ⟨0, 0⟩⟩⟩
        else ⟨decide (i = 0 ∨ i = 256), ⟨⟨10, 0, 10⟩, ⟨0, 0⟩⟩⟩)
    m_maxConnections := 257
    m_connections := 2
    m_aliveEntities := 2 }

/-- The constructed server of capacity `N` after its first client, from
(`address`, `port`), was accepted into slot 0. -/
def firstAccepted (N address port : Nat) : Server :=
  acceptInto (Server.Server N) 0 address port ClientSession.init ⟨true, Entity.init.transform⟩

/-! ## Auxiliary lemmas -/

theorem wf_construct (N : Nat) (hN : N < 256) : wf (Server.Server N) := by
  simp only [wf, Server.Server]
  refine ⟨by simp, by simp, ?_, hN⟩
  simp only [List.map_replicate]
  split <;> split <;> simp

theorem findEmptySlotFrom_spec (statuses : List ClientStatus) :
    ∀ (n i : Nat), i + n ≤ statuses.length →
      (∃ k : Nat, findEmptySlotFrom statuses n i = .ok (k : Int) ∧ i ≤ k ∧ k < i + n ∧
          statuses[k]? = some ClientStatus.Disconnected ∧
          ∀ j, i ≤ j → j < k → statuses[j]? = some ClientStatus.Connected) ∨
      (findEmptySlotFrom statuses n i = .ok (-1) ∧
          ∀ j, i ≤ j → j < i + n → statuses[j]? = some ClientStatus.Connected) := by
  intro n
  induction n with
  | zero =>
    intro i _
    right
    refine ⟨rfl, ?_⟩
    intro j h1 h2
    omega
  | succ n ih =>
    intro i hlen
    have hi : i < statuses.length := by omega
    unfold findEmptySlotFrom
    rw [List.getElem?_eq_getElem hi]
    cases hst : statuses[i] with
    | Disconnected =>
      left
      refine ⟨i, rfl, le_refl _, by omega, ?_, ?_⟩
      · rw [List.getElem?_eq_getElem hi, hst]
      · intro j h1 h2
        omega
    | Connected =>
      simp only
      have hi' : statuses[i]? = some ClientStatus.Connected := by
        rw [List.getElem?_eq_getElem hi, hst]
      rcases ih (i + 1) (by omega) with ⟨k, hk, h1, h2, h3, h4⟩ | ⟨hk, h4⟩
      · left
        refine ⟨k, hk, by omega, by omega, h3, ?_⟩
        intro j hj1 hj2
        by_cases hji : j = i
        · subst hji; exact hi'
        · exact h4 j (by omega) hj2
      · right
        refine ⟨hk, ?_⟩
        intro j hj1 hj2
        by_cases hji : j = i
        · subst hji; exact hi'
        · exact h4 j (by omega) (by omega)

theorem findEmptySlot_spec (s : Server)
    (h2 : s.m_clientStatuses.length = s.m_maxConnections) :
    (∃ k : Nat, findEmptySlot s = .ok (k : Int) ∧ k < s.m_maxConnections ∧
        s.m_clientStatuses[k]? = some ClientStatus.Disconnected ∧
        ∀ j, j < k → s.m_clientStatuses[j]? = some ClientStatus.Connected) ∨
    (findEmptySlot s = .ok (-1) ∧
        ∀ j, j < s.m_maxConnections → s.m_clientStatuses[j]? = some ClientStatus.Connected) := by
  have hlen : 0 + s.m_maxConnections ≤ s.m_clientStatuses.length := by
    rw [h2]; omega
  rcases findEmptySlotFrom_spec s.m_clientStatuses s.m_maxConnections 0 hlen with
    ⟨k, hk, _, h2, h3, h4⟩ | ⟨hk, h4⟩
  · left
    exact ⟨k, hk, by omega, h3, fun j hj => h4 j (Nat.zero_le _) hj⟩
  · right
    exact ⟨hk, fun j hj => h4 j (Nat.zero_le _) (by omega)⟩

theorem castClientId_of_lt (k : Nat) (h : k < 256) : castClientId (k : Int) = k := by
  unfold castClientId
  omega

theorem castU8_of_lt (k : Nat) (h : k < 256) : castU8 (k : Int) = k := by
  unfold castU8
  omega

theorem castClientId_le (k : Nat) : castClientId (k : Int) ≤ k := by
  unfold castClientId
  omega

theorem sendToAllClientsFrom_eq (sock : Datagram → SocketStatus) (s : Server) (packet : Packet) :
    ∀ (n i : Nat), i + n ≤ s.m_clientStatuses.length → i + n ≤ s.m_clientSessions.length →
      i + n ≤ 256 →
      sendToAllClientsFrom sock s packet n i =
        (((List.range' i n).filter
            (fun i => decide (s.m_clientStatuses[i]? = some ClientStatus.Connected))).filterMap
            (fun i => (s.m_clientSessions[i]?).map
              (fun e => (⟨packet, e.address, e.port⟩ : Datagram))), none) := by
  intro n
  induction n with
  | zero =>
    intro i _ _ _
    simp [sendToAllClientsFrom]
  | succ n ih =>
    intro i h1 h2 h3
    have hi1 : i < s.m_clientStatuses.length := by omega
    have hi2 : i < s.m_clientSessions.length := by omega
    have hrec := ih (i + 1) (by omega) (by omega) (by omega)
    unfold sendToAllClientsFrom
    rw [List.range'_succ, castClientId_of_lt i (by omega)]
    cases hst : s.m_clientStatuses[i] with
    | Disconnected =>
      have hi' : s.m_clientStatuses[i]? = some ClientStatus.Disconnected := by
        rw [List.getElem?_eq_getElem hi1, hst]
      simp [sendToClient, hi', hrec]
    | Connected =>
      have hi' : s.m_clientStatuses[i]? = some ClientStatus.Connected := by
        rw [List.getElem?_eq_getElem hi1, hst]
      have hs' : s.m_clientSessions[i]? = some s.m_clientSessions[i] :=
        List.getElem?_eq_getElem hi2
      simp [sendToClient, hi', hs', hrec]

theorem sendToAllClients_eq (sock : Datagram → SocketStatus) (s : Server) (packet : Packet)
    (h1 : s.m_clientStatuses.length = s.m_maxConnections)
    (h2 : s.m_clientSessions.length = s.m_maxConnections)
    (h4 : s.m_maxConnections ≤ 256) :
    sendToAllClients sock s packet = (toConnected s packet, none) := by
  unfold sendToAllClients toConnected connectedSlots
  rw [sendToAllClientsFrom_eq sock s packet s.m_maxConnections 0 (by omega) (by omega)
    (by omega), List.range_eq_range']

theorem sendToClient_ok (sock : Datagram → SocketStatus) (s : Server) (packet : Packet)
    (id : Nat) (h1 : id < s.m_clientStatuses.length) (h2 : id < s.m_clientSessions.length) :
    ∃ r, sendToClient sock s id packet = .ok r := by
  unfold sendToClient
  rw [List.getElem?_eq_getElem h1, List.getElem?_eq_getElem h2]
  cases s.m_clientStatuses[id] with
  | Disconnected => exact ⟨_, rfl⟩
  | Connected => exact ⟨_, rfl⟩

theorem sendToAllClientsFrom_noFault (sock : Datagram → SocketStatus) (s : Server)
    (packet : Packet) :
    ∀ (n i : Nat), i + n ≤ s.m_clientStatuses.length → i + n ≤ s.m_clientSessions.length →
      (sendToAllClientsFrom sock s packet n i).2 = none := by
  intro n
  induction n with
  | zero =>
    intro i _ _
    rfl
  | succ n ih =>
    intro i h1 h2
    have hle := castClientId_le i
    obtain ⟨r, hr⟩ := sendToClient_ok sock s packet (castClientId (i : Int)) (by omega) (by omega)
    unfold sendToAllClientsFrom
    rw [hr]
    exact ih (i + 1) (by omega) (by omega)

/-- With tables sized to the capacity the broadcast loop ends without a fault. -/
theorem sendToAllClients_noFault (sock : Datagram → SocketStatus) (s : Server) (packet : Packet)
    (h1 : s.m_clientStatuses.length = s.m_maxConnections)
    (h2 : s.m_clientSessions.length = s.m_maxConnections) :
    sendToAllClients sock s packet = ((sendToAllClients sock s packet).1, none) := by
  have h := sendToAllClientsFrom_noFault sock s packet s.m_maxConnections 0 (by omega) (by omega)
  exact Prod.ext rfl h

theorem guard_eq_false_iff (s : Server) (address port : Nat) :
    s.m_clientSessions.any
        (fun endpoint => address == endpoint.address && port == endpoint.port) = false ↔
      notInTable s address port := by
  unfold notInTable
  rw [Bool.eq_false_iff]
  simp only [ne_eq, List.any_eq_true, Bool.and_eq_true, beq_iff_eq, not_exists, not_and]
  constructor
  · intro h e he h1 h2
    exact h e he h1.symm h2.symm
  · intro h e he h1 h2
    exact h e he h1.symm h2.symm

theorem findEmptySlot_ok_nat (s : Server)
    (h2 : s.m_clientStatuses.length = s.m_maxConnections) (k : Nat)
    (hf : findEmptySlot s = .ok (k : Int)) :
    k < s.m_maxConnections ∧
      s.m_clientStatuses[k]? = some ClientStatus.Disconnected ∧
      (∀ j, j < k → s.m_clientStatuses[j]? = some ClientStatus.Connected) := by
  rcases findEmptySlot_spec s h2 with ⟨k', e1, e2, e3, e4⟩ | ⟨e1, _⟩
  · rw [hf] at e1
    have : k = k' := by
      injection e1 with e1
      exact Int.ofNat_inj.mp e1
    subst this
    exact ⟨e2, e3, e4⟩
  · rw [hf] at e1
    injection e1 with e1
    omega

/-- The accepting branch of `handleIncomingConnection`, with the packet fields
as the casts leave them. -/
theorem handleIncomingConnection_accept_raw (sock : Datagram → SocketStatus) (s : Server)
    (address port k : Nat)
    (h1 : s.m_clientSessions.length = s.m_maxConnections)
    (h2 : s.m_clientStatuses.length = s.m_maxConnections)
    (h3 : s.m_maxConnections + 2 ≤ s.m_entities.length)
    (hg : notInTable s address port)
    (hc : s.m_connections < (s.m_maxConnections : Int))
    (hf : findEmptySlot s = .ok (k : Int)) :
    ∃ (session : ClientSession) (entity : Entity),
      s.m_clientSessions[k]? = some session ∧ s.m_entities[k]? = some entity ∧
      k < s.m_maxConnections ∧
      s.m_clientStatuses[k]? = some ClientStatus.Disconnected ∧
      (∀ j, j < k → s.m_clientStatuses[j]? = some ClientStatus.Connected) ∧
      handleIncomingConnection sock s address port =
        .done (acceptInto s k address port session entity)
          (⟨Packet.ConnectRequestResult .Success
              [castClientId k, castU8 s.m_maxConnections], address, port⟩ ::
            (sendToAllClients sock (acceptInto s k address port session entity)
              (Packet.PlayerJoin (castClientId k))).1) := by
  obtain ⟨hkN, hkD, hkC⟩ := findEmptySlot_ok_nat s h2 k hf
  have hk1 : k < s.m_clientStatuses.length := by omega
  have hk2 : k < s.m_clientSessions.length := by omega
  have hk3 : k < s.m_entities.length := by omega
  refine ⟨s.m_clientSessions[k], s.m_entities[k], List.getElem?_eq_getElem hk2,
    List.getElem?_eq_getElem hk3, hkN, hkD, hkC, ?_⟩
  have hguard := (guard_eq_false_iff s address port).mpr hg
  have hnn : ¬ ((k : Int) < 0) := by omega
  unfold handleIncomingConnection
  rw [hguard]
  simp only [Bool.false_eq_true, if_false, hc, if_true, hf, hnn, Int.toNat_ofNat, hk1, hk2, hk3,
    dite_true, List.nil_append, List.singleton_append]
  rw [sendToAllClients_noFault sock _ _ (by simp [h2]) (by simp [h1])]
  rfl

/-- The accepting branch of `handleIncomingConnection` when slot and capacity fit
their one-byte fields. -/
theorem handleIncomingConnection_accept (sock : Datagram → SocketStatus) (s : Server)
    (address port k : Nat) (h : wf s) (hg : notInTable s address port)
    (hc : s.m_connections < (s.m_maxConnections : Int))
    (hf : findEmptySlot s = .ok (k : Int)) :
    ∃ (session : ClientSession) (entity : Entity),
      s.m_clientSessions[k]? = some session ∧ s.m_entities[k]? = some entity ∧
      k < s.m_maxConnections ∧
      s.m_clientStatuses[k]? = some ClientStatus.Disconnected ∧
      (∀ j, j < k → s.m_clientStatuses[j]? = some ClientStatus.Connected) ∧
      handleIncomingConnection sock s address port =
        .done (acceptInto s k address port session entity)
          (⟨Packet.ConnectRequestResult .Success [k, s.m_maxConnections], address, port⟩ ::
            toConnected (acceptInto s k address port session entity)
              (Packet.PlayerJoin k)) := by
  obtain ⟨h1, h2, h3, h4⟩ := h
  obtain ⟨session, entity, a1, a2, a3, a4, a5, a6⟩ :=
    handleIncomingConnection_accept_raw sock s address port k h1 h2 h3 hg hc hf
  rw [castClientId_of_lt k (by omega), castU8_of_lt s.m_maxConnections h4,
    sendToAllClients_eq sock _ _ (by simp [acceptInto, h2]) (by simp [acceptInto, h1])
      (by simp only [acceptInto]; omega)] at a6
  exact ⟨session, entity, a1, a2, a3, a4, a5, a6⟩

/-- With the counter below capacity and no free slot, `handleIncomingConnection`
sends the rejection and then writes the status table at index -1. -/
theorem handleIncomingConnection_noSlot (sock : Datagram → SocketStatus) (s : Server)
    (address port : Nat) (hg : notInTable s address port)
    (hc : s.m_connections < (s.m_maxConnections : Int))
    (hf : findEmptySlot s = .ok (-1)) :
    handleIncomingConnection sock s address port =
      .fault (.statusOutOfRange (-1)) [sendRejection .GameFull address port] := by
  have hguard := (guard_eq_false_iff s address port).mpr hg
  unfold handleIncomingConnection
  rw [hguard]
  simp [hc, hf]

/-- With the counter at or above capacity, `handleIncomingConnection` only sends
the rejection. -/
theorem handleIncomingConnection_full (sock : Datagram → SocketStatus) (s : Server)
    (address port : Nat) (hg : notInTable s address port)
    (hc : ¬ s.m_connections < (s.m_maxConnections : Int)) :
    handleIncomingConnection sock s address port =
      .done s [sendRejection .GameFull address port] := by
  have hguard := (guard_eq_false_iff s address port).mpr hg
  unfold handleIncomingConnection
  rw [hguard]
  simp [hc]

/-- An endpoint held by some entry of the session table is dropped silently. -/
theorem handleIncomingConnection_inTable (sock : Datagram → SocketStatus) (s : Server)
    (address port : Nat) (hg : ¬ notInTable s address port) :
    handleIncomingConnection sock s address port = .done s [] := by
  have hguard : s.m_clientSessions.any
      (fun endpoint => address == endpoint.address && port == endpoint.port) = true := by
    rw [← Bool.not_eq_false]
    exact fun hfalse => hg ((guard_eq_false_iff s address port).mp hfalse)
  unfold handleIncomingConnection
  rw [hguard]
  rfl

/-- The state `handleDisconnect` leaves for a slot index inside the tables. -/
theorem handleDisconnect_raw (sock : Datagram → SocketStatus) (s : Server) (client : Nat)
    (h1 : s.m_clientSessions.length = s.m_maxConnections)
    (h2 : s.m_clientStatuses.length = s.m_maxConnections)
    (h3 : s.m_maxConnections + 2 ≤ s.m_entities.length)
    (hc : client < s.m_maxConnections) :
    ∃ entity : Entity, s.m_entities[client]? = some entity ∧
      handleDisconnect sock s client =
        .done (dropSlot s client entity)
          (sendToAllClients sock (dropSlot s client entity) (Packet.PlayerLeave client)).1 := by
  have hk1 : client < s.m_clientStatuses.length := by omega
  have hk3 : client < s.m_entities.length := by omega
  refine ⟨s.m_entities[client], List.getElem?_eq_getElem hk3, ?_⟩
  unfold handleDisconnect
  simp only [hk1, hk3, if_true, dite_true]
  rw [sendToAllClients_noFault sock _ _ (by simp [h2]) (by simp [h1])]
  rfl

/-- The outcome of `handleDisconnect` when the capacity is at most 256. -/
theorem handleDisconnect_eq (sock : Datagram → SocketStatus) (s : Server) (client : Nat)
    (h1 : s.m_clientSessions.length = s.m_maxConnections)
    (h2 : s.m_clientStatuses.length = s.m_maxConnections)
    (h3 : s.m_maxConnections + 2 ≤ s.m_entities.length)
    (h4 : s.m_maxConnections ≤ 256) (hc : client < s.m_maxConnections) :
    ∃ entity : Entity, s.m_entities[client]? = some entity ∧
      handleDisconnect sock s client =
        .done (dropSlot s client entity)
          (toConnected (dropSlot s client entity) (Packet.PlayerLeave client)) := by
  obtain ⟨entity, he, heq⟩ := handleDisconnect_raw sock s client h1 h2 h3 hc
  rw [sendToAllClients_eq sock _ _ (by simp [dropSlot, h2]) (by simp [dropSlot, h1])
    (by simp only [dropSlot]; omega)] at heq
  exact ⟨entity, he, heq⟩

theorem mem_connectedSlots (s : Server) (i : Nat) :
    i ∈ connectedSlots s ↔
      i < s.m_maxConnections ∧ s.m_clientStatuses[i]? = some ClientStatus.Connected := by
  simp [connectedSlots]

theorem sized_construct (N : Nat) : sized N (Server.Server N) := by
  simp only [sized, Server.Server]
  refine ⟨trivial, by simp, by simp, ?_⟩
  simp only [List.map_replicate]
  split <;> split <;> simp

theorem sized_acceptInto {N : Nat} {s : Server} (h : sized N s) (k address port : Nat)
    (session : ClientSession) (entity : Entity) :
    sized N (acceptInto s k address port session entity) := by
  obtain ⟨h0, h1, h2, h3⟩ := h
  simp [sized, acceptInto, h0, h1, h2, h3]

theorem sized_dropSlot {N : Nat} {s : Server} (h : sized N s) (client : Nat) (entity : Entity) :
    sized N (dropSlot s client entity) := by
  obtain ⟨h0, h1, h2, h3⟩ := h
  simp [sized, dropSlot, h0, h1, h2, h3]

theorem sized_withInput {N : Nat} {s : Server} (h : sized N s) (client keyState : Nat)
    (rx ry : Scalar) (session : ClientSession) (entity : Entity) :
    sized N (withInput s client keyState rx ry session entity) := by
  obtain ⟨h0, h1, h2, h3⟩ := h
  simp [sized, withInput, h0, h1, h2, h3]

theorem wf_of_sized {N : Nat} {s : Server} (h : sized N s) (hN : N < 256) : wf s := by
  obtain ⟨h0, h1, h2, h3⟩ := h
  exact ⟨by omega, by omega, by omega, by omega⟩

/-- What a completed `handleIncomingConnection` can have done. -/
theorem handleIncomingConnection_done_cases {N : Nat} {sock : Datagram → SocketStatus}
    {s s1 : Server} {address port : Nat} {sent : List Datagram} (hs : sized N s)
    (h : handleIncomingConnection sock s address port = .done s1 sent) :
    s1 = s ∨
    ∃ (k : Nat) (session : ClientSession) (entity : Entity),
      notInTable s address port ∧ s.m_connections < (N : Int) ∧ k < N ∧
      s.m_clientStatuses[k]? = some ClientStatus.Disconnected ∧
      (∀ j, j < k → s.m_clientStatuses[j]? = some ClientStatus.Connected) ∧
      s.m_clientSessions[k]? = some session ∧ s.m_entities[k]? = some entity ∧
      s1 = acceptInto s k address port session entity := by
  obtain ⟨h0, h1, h2, h3⟩ := hs
  by_cases hg : notInTable s address port
  · by_cases hc : s.m_connections < (s.m_maxConnections : Int)
    · rcases findEmptySlot_spec s (by omega) with ⟨k, hf, _, _, _⟩ | ⟨hf, _⟩
      · obtain ⟨session, entity, a1, a2, a3, a4, a5, a6⟩ :=
          handleIncomingConnection_accept_raw sock s address port k (by omega) (by omega)
            (by omega) hg hc hf
        rw [a6] at h
        injection h with h _
        right
        exact ⟨k, session, entity, hg, by rw [← h0]; exact hc, by omega, a4, a5, a1, a2, h.symm⟩
      · rw [handleIncomingConnection_noSlot sock s address port hg hc hf] at h
        cases h
    · rw [handleIncomingConnection_full sock s address port hg hc] at h
      injection h with h _
      exact Or.inl h.symm
  · rw [handleIncomingConnection_inTable sock s address port hg] at h
    injection h with h _
    exact Or.inl h.symm

/-- What a completed `handleDisconnect` has done. -/
theorem handleDisconnect_done_cases {N : Nat} {sock : Datagram → SocketStatus}
    {s s1 : Server} {client : Nat} {sent : List Datagram} (hs : sized N s)
    (h : handleDisconnect sock s client = .done s1 sent) :
    client < N ∧ ∃ entity : Entity,
      s.m_entities[client]? = some entity ∧ s1 = dropSlot s client entity := by
  obtain ⟨h0, h1, h2, h3⟩ := hs
  by_cases hc : client < N
  · obtain ⟨entity, he, heq⟩ :=
      handleDisconnect_raw sock s client (by omega) (by omega) (by omega) (by omega)
    rw [heq] at h
    injection h with h _
    exact ⟨hc, entity, he, h.symm⟩
  · have hc' : ¬ client < s.m_clientStatuses.length := by omega
    unfold handleDisconnect at h
    rw [if_neg hc'] at h
    cases h

/-- What a completed `handleKeyInput` has done. -/
theorem handleKeyInput_done_cases {s s1 : Server} {client keyState : Nat} {rx ry : Scalar}
    {sent : List Datagram} (h : handleKeyInput s client keyState rx ry = .done s1 sent) :
    ∃ (session : ClientSession) (entity : Entity),
      s.m_clientSessions[client]? = some session ∧ s.m_entities[client]? = some entity ∧
      s1 = withInput s client keyState rx ry session entity := by
  unfold handleKeyInput at h
  by_cases hs : client < s.m_clientSessions.length
  · by_cases he : client < s.m_entities.length
    · simp only [hs, he, dite_true] at h
      injection h with h _
      exact ⟨s.m_clientSessions[client], s.m_entities[client], List.getElem?_eq_getElem hs,
        List.getElem?_eq_getElem he, h.symm⟩
    · simp only [hs, he, dite_true, dite_false] at h
      cases h
  · simp only [hs, dite_false] at h
    cases h

theorem sized_of_reachable {allowed : Server → Command → Prop} {N : Nat} {s : Server}
    (h : ReachableBy allowed N s) : sized N s := by
  induction h with
  | init => exact sized_construct N
  | @step s s1 c sent sock _ _ hstep ih =>
    cases c with
    | Connect address port =>
      rcases handleIncomingConnection_done_cases ih hstep with e | ⟨k, se, en, _, _, _, _, _, _, _, e⟩
      · rw [e]; exact ih
      · rw [e]; exact sized_acceptInto ih _ _ _ _ _
    | Disconnect client =>
      obtain ⟨_, en, _, e⟩ := handleDisconnect_done_cases ih hstep
      rw [e]; exact sized_dropSlot ih _ _
    | PlayerInput client keyState rx ry =>
      obtain ⟨se, en, _, _, e⟩ := handleKeyInput_done_cases hstep
      rw [e]; exact sized_withInput ih _ _ _ _ _ _

theorem connectedCount_acceptInto (s : Server) (k address port : Nat)
    (session : ClientSession) (entity : Entity)
    (hk : s.m_clientStatuses[k]? = some ClientStatus.Disconnected) :
    connectedCount (acceptInto s k address port session entity) = connectedCount s + 1 := by
  obtain ⟨hlt, hval⟩ := List.getElem?_eq_some_iff.mp hk
  simp [connectedCount, acceptInto, List.count_set _ _ _ _ hlt, hval]

theorem connectedCount_dropSlot_connected (s : Server) (client : Nat) (entity : Entity)
    (hk : s.m_clientStatuses[client]? = some ClientStatus.Connected) :
    connectedCount (dropSlot s client entity) + 1 = connectedCount s := by
  obtain ⟨hlt, hval⟩ := List.getElem?_eq_some_iff.mp hk
  have hmem : ClientStatus.Connected ∈ s.m_clientStatuses := List.getElem?_mem hk
  have hpos : 0 < s.m_clientStatuses.count ClientStatus.Connected := List.count_pos_iff.mpr hmem
  simp only [connectedCount, dropSlot, List.count_set _ _ _ _ hlt, hval]
  simp
  omega

theorem connectedCount_withInput (s : Server) (client keyState : Nat) (rx ry : Scalar)
    (session : ClientSession) (entity : Entity) :
    connectedCount (withInput s client keyState rx ry session entity) = connectedCount s := rfl

theorem connectedCount_construct (N : Nat) : connectedCount (Server.Server N) = 0 := by
  simp only [connectedCount, Server.Server]
  rw [List.count_eq_zero]
  intro hmem
  have := List.eq_of_mem_replicate hmem
  cases this

theorem connectedCount_of_all_connected {N : Nat} {s : Server} (hs : sized N s)
    (hall : ∀ j, j < s.m_maxConnections →
      s.m_clientStatuses[j]? = some ClientStatus.Connected) :
    connectedCount s = N := by
  obtain ⟨h0, _, h2, _⟩ := hs
  unfold connectedCount
  rw [← h2, List.count_eq_length]
  intro b hb
  obtain ⟨j, hj⟩ := List.mem_iff_getElem?.mp hb
  have hjlt : j < s.m_clientStatuses.length := (List.getElem?_eq_some_iff.mp hj).1
  rw [hall j (by omega)] at hj
  injection hj

theorem status_dropSlot_connected {s : Server} {client i : Nat} {entity : Entity}
    (h : (dropSlot s client entity).m_clientStatuses[i]? = some ClientStatus.Connected) :
    i ≠ client ∧ s.m_clientStatuses[i]? = some ClientStatus.Connected := by
  simp only [dropSlot, List.getElem?_set] at h
  by_cases hci : client = i
  · rw [if_pos hci] at h
    split at h <;> cases h
  · rw [if_neg hci] at h
    exact ⟨fun e => hci e.symm, h⟩

theorem session_withInput {s : Server} {client keyState i : Nat} {rx ry : Scalar}
    {session e : ClientSession} {entity : Entity}
    (hs : s.m_clientSessions[client]? = some session)
    (h : (withInput s client keyState rx ry session entity).m_clientSessions[i]? = some e) :
    ∃ e0, s.m_clientSessions[i]? = some e0 ∧ e0.address = e.address ∧ e0.port = e.port := by
  simp only [withInput, List.getElem?_set] at h
  by_cases hci : client = i
  · rw [if_pos hci] at h
    subst hci
    split at h
    · injection h with h
      exact ⟨session, hs, by rw [← h], by rw [← h]⟩
    · cases h
  · rw [if_neg hci] at h
    exact ⟨e, h, rfl, rfl⟩

theorem reachable_of_recievePackets {N : Nat} (sock : Datagram → SocketStatus) :
    ∀ (commands : List Command) (s0 s : Server) (sent : List Datagram),
      ReachableBy anyCommand N s0 → recievePackets sock s0 commands = .done s sent →
      ReachableBy anyCommand N s := by
  intro commands
  induction commands with
  | nil =>
    intro s0 s sent h0 hrun
    simp only [recievePackets] at hrun
    injection hrun with e _
    rw [← e]; exact h0
  | cons c cs ih =>
    intro s0 s sent h0 hrun
    simp only [recievePackets] at hrun
    cases hd : dispatch sock s0 c with
    | fault f out =>
      rw [hd] at hrun
      cases hrun
    | done s1 out =>
      rw [hd] at hrun
      simp only at hrun
      cases hr : recievePackets sock s1 cs with
      | fault f out2 =>
        rw [hr] at hrun
        cases hrun
      | done s2 out2 =>
        rw [hr] at hrun
        simp only at hrun
        injection hrun with e _
        rw [← e]
        exact ih s1 s2 out2 (ReachableBy.step sock h0 trivial hd) hr

theorem findEmptySlot_eq_lowest {N : Nat} {s : Server} (hs : sized N s) {k : Nat}
    (hk : s.m_clientStatuses[k]? = some ClientStatus.Disconnected)
    (hlow : ∀ j, j < k → s.m_clientStatuses[j]? = some ClientStatus.Connected) :
    findEmptySlot s = .ok (k : Int) := by
  obtain ⟨h0, _, h2, _⟩ := hs
  have hklt : k < s.m_clientStatuses.length := (List.getElem?_eq_some_iff.mp hk).1
  rcases findEmptySlot_spec s (by omega) with ⟨k', hf, _, hkD, hkC⟩ | ⟨_, hall⟩
  · rcases Nat.lt_trichotomy k' k with hlt | heq | hgt
    · rw [hlow k' hlt] at hkD
      cases hkD
    · rw [hf, heq]
    · rw [hkC k hgt] at hk
      cases hk
  · rw [hall k (by omega)] at hk
    cases hk

theorem recievePackets_append (sock : Datagram → SocketStatus) :
    ∀ (cs ds : List Command) (s s1 s2 : Server) (o1 o2 : List Datagram),
      recievePackets sock s cs = .done s1 o1 → recievePackets sock s1 ds = .done s2 o2 →
      recievePackets sock s (cs ++ ds) = .done s2 (o1 ++ o2) := by
  intro cs
  induction cs with
  | nil =>
    intro ds s s1 s2 o1 o2 h1 h2
    simp only [recievePackets] at h1
    injection h1 with e1 e2
    subst e1 e2
    simpa using h2
  | cons c cs ih =>
    intro ds s s1 s2 o1 o2 h1 h2
    simp only [recievePackets, List.cons_append] at h1 ⊢
    cases hd : dispatch sock s c with
    | fault f out =>
      rw [hd] at h1
      cases h1
    | done sa out =>
      rw [hd] at h1
      simp only at h1 ⊢
      cases hr : recievePackets sock sa cs with
      | fault f out2 =>
        rw [hr] at h1
        cases h1
      | done sb out2 =>
        rw [hr] at h1
        simp only at h1
        injection h1 with e1 e2
        subst e1 e2
        have hrec := ih ds sa sb s2 out2 o2 hr h2
        simp only [List.append_eq, hrec, List.append_assoc]

theorem recievePackets_single (sock : Datagram → SocketStatus) (s s1 : Server) (c : Command)
    (out : List Datagram) (h : dispatch sock s c = .done s1 out) :
    recievePackets sock s [c] = .done s1 out := by
  simp [recievePackets, h]

theorem not_mem_take_of_nodup {α : Type} {l : List α} (hnd : l.Nodup) {k : Nat} {r : α}
    (hk : l[k]? = some r) : r ∉ l.take k := by
  intro hmem
  obtain ⟨j, hj⟩ := List.mem_iff_getElem?.mp hmem
  rw [List.getElem?_take] at hj
  by_cases hjk : j < k
  · rw [if_pos hjk] at hj
    have hklt : k < l.length := (List.getElem?_eq_some_iff.mp hk).1
    have := List.nodup_iff_getElem?_ne_getElem?.mp hnd j k hjk hklt
    rw [hj, hk] at this
    exact this rfl
  · rw [if_neg hjk] at hj
    cases hj

theorem filledTo_construct (N : Nat) (reqs : List (Nat × Nat)) :
    filledTo N reqs 0 (Server.Server N) := by
  refine ⟨sized_construct N, rfl, ?_, ?_, ?_⟩
  · intro j hj
    omega
  · intro j _ hj
    simp only [Server.Server]
    rw [List.getElem?_replicate]
    simp [hj]
  · intro e he
    left
    simp only [Server.Server] at he
    rw [List.eq_of_mem_replicate he]
    rfl

theorem notInTable_of_filledTo {N k : Nat} {reqs : List (Nat × Nat)} {s : Server}
    (h : filledTo N reqs k s) (hnd : reqs.Nodup) {r : Nat × Nat} (hk : reqs[k]? = some r)
    (hr : r ≠ initEndpoint) : notInTable s r.1 r.2 := by
  intro e he hc
  have her : (e.address, e.port) = r := Prod.ext hc.1 hc.2
  rcases h.2.2.2.2 e he with hd | hm
  · exact hr (her ▸ hd)
  · rw [her] at hm
    exact not_mem_take_of_nodup hnd hk hm

/-- One more distinct request on a server filled up to `k < N`. -/
theorem connect_of_filledTo {N k : Nat} (hN : N < 256) (sock : Datagram → SocketStatus)
    {reqs : List (Nat × Nat)} {s : Server} (h : filledTo N reqs k s) (hnd : reqs.Nodup)
    {r : Nat × Nat} (hk : reqs[k]? = some r) (hr : r ≠ initEndpoint) (hkN : k < N) :
    ∃ s1 : Server,
      handleIncomingConnection sock s r.1 r.2 =
        .done s1 (⟨Packet.ConnectRequestResult .Success [k, N], r.1, r.2⟩ ::
          toConnected s1 (Packet.PlayerJoin k)) ∧
      filledTo N reqs (k + 1) s1 := by
  have hg := notInTable_of_filledTo h hnd hk hr
  obtain ⟨hs, hconn, hC, hD, hsess⟩ := h
  have hmax : s.m_maxConnections = N := hs.1
  have hc : s.m_connections < (s.m_maxConnections : Int) := by
    rw [hmax, hconn]
    omega
  have hf := findEmptySlot_eq_lowest hs (hD k (le_refl k) hkN) hC
  obtain ⟨session, entity, hse, _, _, _, _, heq⟩ :=
    handleIncomingConnection_accept sock s r.1 r.2 k (wf_of_sized hs hN) hg hc hf
  rw [hmax] at heq
  refine ⟨_, heq, sized_acceptInto hs _ _ _ _ _, ?_, ?_, ?_, ?_⟩
  · simp only [acceptInto, hconn]
    push_cast
    rfl
  · intro j hj
    have hklt : k < s.m_clientStatuses.length := by
      obtain ⟨_, _, h2, _⟩ := hs
      omega
    simp only [acceptInto]
    by_cases hjk : j = k
    · subst hjk
      exact List.getElem?_set_self hklt
    · rw [List.getElem?_set_ne (Ne.symm hjk)]
      exact hC j (by omega)
  · intro j hj1 hj2
    simp only [acceptInto]
    rw [List.getElem?_set_ne (by omega)]
    exact hD j (by omega) hj2
  · intro e he
    simp only [acceptInto] at he
    rw [List.take_succ, hk]
    rcases List.mem_or_eq_of_mem_set he with hold | hnew
    · rcases hsess e hold with hd | hm
      · exact Or.inl hd
      · exact Or.inr (List.mem_append_left _ hm)
    · right
      rw [hnew]
      simp

/-- The server after the first `k ≤ N` distinct requests. -/
theorem run_connects_filledTo {N : Nat} (hN : N < 256) (sock : Datagram → SocketStatus)
    {reqs : List (Nat × Nat)} (hnd : reqs.Nodup) (hdef : ∀ r ∈ reqs, r ≠ initEndpoint) :
    ∀ k, k ≤ N → k ≤ reqs.length →
      ∃ s pre, recievePackets sock (Server.Server N) (connects (reqs.take k)) = .done s pre ∧
        filledTo N reqs k s := by
  intro k
  induction k with
  | zero =>
    intro _ _
    exact ⟨Server.Server N, [], rfl, filledTo_construct N reqs⟩
  | succ k ih =>
    intro hkN hklen
    obtain ⟨s, pre, hrun, hfill⟩ := ih (by omega) (by omega)
    have hk : reqs[k]? = some reqs[k] := List.getElem?_eq_getElem (by omega)
    obtain ⟨s1, hstep, hfill1⟩ :=
      connect_of_filledTo hN sock hfill hnd hk (hdef _ (List.getElem?_mem hk)) (by omega)
    refine ⟨s1, pre ++ (⟨Packet.ConnectRequestResult .Success [k, N], reqs[k].1, reqs[k].2⟩ ::
      toConnected s1 (Packet.PlayerJoin k)), ?_, hfill1⟩
    rw [List.take_succ, hk]
    simp only [connects, Option.toList, List.map_append, List.map_cons, List.map_nil]
    exact recievePackets_append sock _ _ _ _ _ _ _ hrun
      (recievePackets_single sock s s1 _ _ hstep)

theorem filterMap_sessions_eq_map (sessions : List ClientSession)
    (f : ClientSession → Datagram) :
    ∀ (l : List Nat), (∀ i ∈ l, i < sessions.length) →
      ∃ held : List ClientSession, l.map (fun i => sessions[i]?) = held.map some ∧
        l.filterMap (fun i => (sessions[i]?).map f) = held.map f := by
  intro l
  induction l with
  | nil =>
    intro _
    exact ⟨[], rfl, rfl⟩
  | cons i l ih =>
    intro hall
    obtain ⟨held, h1, h2⟩ := ih (fun j hj => hall j (List.mem_cons_of_mem _ hj))
    have hi : i < sessions.length := hall i (List.mem_cons_self _ _)
    refine ⟨sessions[i] :: held, ?_, ?_⟩
    · simp [List.getElem?_eq_getElem hi, h1]
    · simp only [List.filterMap_cons, List.getElem?_eq_getElem hi, Option.map_some',
        List.map_cons, h2]

theorem isPressed_two_pow (input b : Nat) : isPressed input (2 ^ b) = input.testBit b := by
  unfold isPressed
  cases hb : input.testBit b with
  | true =>
    rw [beq_iff_eq]
    apply Nat.eq_of_testBit_eq
    intro i
    rw [Nat.testBit_and, Nat.testBit_two_pow]
    by_cases hbi : b = i
    · subst hbi
      simp [hb]
    · simp [hbi]
  | false =>
    rw [beq_eq_false_iff_ne]
    intro heq
    have h1 : (input &&& 2 ^ b).testBit b = (2 ^ b).testBit b := by rw [heq]
    rw [Nat.testBit_and, Nat.testBit_two_pow_self, hb] at h1
    cases h1

theorem applyKeys_eq_ref (keys : PlayerInput) (mv : Movement) (input : Nat) (e : Entity) :
    applyKeys keys mv input e = applyInputRef keys mv input e := by
  simp only [applyKeys, applyInputRef, PlayerInput.Forwards, PlayerInput.Back,
    PlayerInput.Left, PlayerInput.Right, isPressed_two_pow]

/-- The loop of `updatePlayers` ends without a fault on tables that cover the
iterated range, changes nothing but entities, and changes entity `j` exactly for
the iterated indices. -/
theorem updatePlayersFrom_spec (keys : PlayerInput) (mv : Movement) :
    ∀ (n i : Nat) (s : Server), i + n ≤ s.m_clientStatuses.length →
      i + n ≤ s.m_clientSessions.length → i + n ≤ s.m_entities.length →
      ∃ s1 : Server, updatePlayersFrom keys mv s n i = .ok s1 ∧
        s1.m_clientStatuses = s.m_clientStatuses ∧ s1.m_clientSessions = s.m_clientSessions ∧
        s1.m_maxConnections = s.m_maxConnections ∧ s1.m_connections = s.m_connections ∧
        s1.m_aliveEntities = s.m_aliveEntities ∧
        ∀ j, s1.m_entities[j]? =
          if i ≤ j ∧ j < i + n then (s.m_entities[j]?).map (stepAt keys mv s j)
          else s.m_entities[j]? := by
  intro n
  induction n with
  | zero =>
    intro i s _ _ _
    refine ⟨s, rfl, rfl, rfl, rfl, rfl, rfl, ?_⟩
    intro j
    rw [if_neg (by omega)]
  | succ n ih =>
    intro i s h1 h2 h3
    have hi1 : i < s.m_clientStatuses.length := by omega
    have hi2 : i < s.m_clientSessions.length := by omega
    have hi3 : i < s.m_entities.length := by omega
    have e1 : s.m_clientStatuses[i]? = some s.m_clientStatuses[i] := List.getElem?_eq_getElem hi1
    have e2 : s.m_clientSessions[i]? = some s.m_clientSessions[i] := List.getElem?_eq_getElem hi2
    have e3 : s.m_entities[i]? = some s.m_entities[i] := List.getElem?_eq_getElem hi3
    unfold updatePlayersFrom
    cases hst : s.m_clientStatuses[i] with
    | Disconnected =>
      rw [hst] at e1
      simp only [e1]
      obtain ⟨s1, r0, r1, r2, r3, r4, r5, r6⟩ := ih (i + 1) s (by omega) (by omega) (by omega)
      refine ⟨s1, r0, r1, r2, r3, r4, r5, ?_⟩
      intro j
      rw [r6 j]
      by_cases hj : j = i
      · subst hj
        rw [if_neg (by omega), if_pos (by omega), e3]
        simp [stepAt, e1]
      · by_cases hr : i + 1 ≤ j ∧ j < i + 1 + n
        · rw [if_pos hr, if_pos (by omega)]
        · rw [if_neg hr, if_neg (by omega)]
    | Connected =>
      rw [hst] at e1
      simp only [e1, e2, e3]
      obtain ⟨s1, r0, r1, r2, r3, r4, r5, r6⟩ :=
        ih (i + 1)
          { s with
            m_entities :=
              s.m_entities.set i
                (applyKeys keys mv s.m_clientSessions[i].keyState s.m_entities[i]) }
          (by simpa using (by omega : i + 1 + n ≤ s.m_clientStatuses.length))
          (by simpa using (by omega : i + 1 + n ≤ s.m_clientSessions.length))
          (by simpa using (by omega : i + 1 + n ≤ s.m_entities.length))
      refine ⟨s1, r0, r1, r2, r3, r4, r5, ?_⟩
      intro j
      rw [r6 j]
      by_cases hj : j = i
      · subst hj
        rw [if_neg (by omega), if_pos (by omega), e3]
        simp [stepAt, e1, e2, List.getElem?_set_self hi3]
      · have hne : i ≠ j := fun h => hj h.symm
        by_cases hr : i + 1 ≤ j ∧ j < i + 1 + n
        · rw [if_pos hr, if_pos (by omega)]
          simp only [List.getElem?_set_ne hne]
          rfl
        · rw [if_neg hr, if_neg (by omega)]
          simp only [List.getElem?_set_ne hne]

/-- On tables sized to the capacity `updatePlayers` ends without a fault. -/
theorem updatePlayers_spec (keys : PlayerInput) (mv : Movement) (s : Server)
    (h1 : s.m_clientSessions.length = s.m_maxConnections)
    (h2 : s.m_clientStatuses.length = s.m_maxConnections)
    (h3 : s.m_maxConnections ≤ s.m_entities.length) :
    ∃ s1 : Server, updatePlayers keys mv s = .ok s1 ∧
      s1.m_clientStatuses = s.m_clientStatuses ∧ s1.m_clientSessions = s.m_clientSessions ∧
      s1.m_maxConnections = s.m_maxConnections ∧ s1.m_connections = s.m_connections ∧
      s1.m_aliveEntities = s.m_aliveEntities ∧
      ∀ j, s1.m_entities[j]? =
        if j < s.m_maxConnections then (s.m_entities[j]?).map (stepAt keys mv s j)
        else s.m_entities[j]? := by
  obtain ⟨s1, r0, r1, r2, r3, r4, r5, r6⟩ :=
    updatePlayersFrom_spec keys mv s.m_maxConnections 0 s (by omega) (by omega) (by omega)
  refine ⟨s1, r0, r1, r2, r3, r4, r5, ?_⟩
  intro j
  rw [r6 j]
  by_cases hj : j < s.m_maxConnections
  · rw [if_pos ⟨Nat.zero_le _, by omega⟩, if_pos hj]
  · rw [if_neg (by omega), if_neg hj]

theorem updatePlayersRef_getElem? (keys : PlayerInput) (mv : Movement) (s : Server) (j : Nat) :
    (updatePlayersRef keys mv s).m_entities[j]? =
      (s.m_entities[j]?).map (fun e =>
        match s.m_clientStatuses[j]?, s.m_clientSessions[j]? with
        | some ClientStatus.Connected, some session =>
          if j < s.m_maxConnections then applyInputRef keys mv session.keyState e else e
        | _, _ => e) := by
  simp only [updatePlayersRef, List.getElem?_zipWith']
  by_cases hj : j < s.m_entities.length
  · rw [List.getElem?_range hj]
    rfl
  · rw [List.getElem?_eq_none (by omega : s.m_entities.length ≤ j)]
    cases (List.range s.m_entities.length)[j]? <;> rfl

theorem castU16_of_lt (k : Nat) (h : k < 65536) : castU16 (k : Int) = k := by
  unfold castU16
  omega

theorem updatePlayers_eq_ref (keys : PlayerInput) (mv : Movement) (s : Server)
    (h1 : s.m_clientSessions.length = s.m_maxConnections)
    (h2 : s.m_clientStatuses.length = s.m_maxConnections)
    (h3 : s.m_maxConnections ≤ s.m_entities.length) :
    updatePlayers keys mv s = .ok (updatePlayersRef keys mv s) := by
  obtain ⟨s1, r0, r1, r2, r3, r4, r5, r6⟩ := updatePlayers_spec keys mv s h1 h2 h3
  rw [r0]
  congr 1
  cases s1 with
  | mk sessions statuses entities maxC conns alive =>
    simp only at r1 r2 r3 r4 r5 r6
    subst r1 r2 r3 r4 r5
    simp only [updatePlayersRef]
    congr 1
    apply List.ext_getElem?
    intro j
    have href := updatePlayersRef_getElem? keys mv s j
    simp only [updatePlayersRef] at href
    rw [r6 j, href]
    by_cases hj : j < s.m_maxConnections
    · rw [if_pos hj]
      congr 1
      funext e
      simp only [stepAt, applyKeys_eq_ref, hj, if_true]
    · rw [if_neg hj]
      have hnone : s.m_clientStatuses[j]? = none :=
        List.getElem?_eq_none (by omega)
      simp [hnone]

theorem sized_updatePlayersRef {N : Nat} {s : Server} (h : sized N s) (keys : PlayerInput)
    (mv : Movement) : sized N (updatePlayersRef keys mv s) := by
  obtain ⟨h0, h1, h2, h3⟩ := h
  simp [sized, updatePlayersRef, h0, h1, h2, h3]

theorem sendPackets_done_state {sock : Datagram → SocketStatus} {s s1 : Server}
    {sent : List Datagram} (h : sendPackets sock s = some (.done s1 sent)) : s1 = s := by
  unfold sendPackets at h
  cases hp : worldStatePacket s with
  | none =>
    rw [hp] at h
    cases h
  | some statePacket =>
    rw [hp] at h
    simp only at h
    rcases hb : sendToAllClients sock s statePacket with ⟨ds, _ | f⟩
    · rw [hb] at h
      simp only at h
      injection h with h
      injection h with h _
      exact h.symm
    · rw [hb] at h
      simp only at h
      injection h with h
      cases h

/-- What a completed tick has done to the state. -/
theorem tick_done_state {N : Nat} {keys : PlayerInput} {mv : Movement}
    {sock : Datagram → SocketStatus} {s s1 : Server} {sent : List Datagram} (hs : sized N s)
    (h : tick keys mv sock s = some (.done s1 sent)) : s1 = updatePlayersRef keys mv s := by
  obtain ⟨h0, h1, h2, h3⟩ := hs
  unfold tick at h
  rw [updatePlayers_eq_ref keys mv s (by omega) (by omega) (by omega)] at h
  exact sendPackets_done_state h

theorem sized_of_reachableWithTicks {keys : PlayerInput} {mv : Movement} {N : Nat} {s : Server}
    (h : ReachableWithTicks keys mv N s) : sized N s := by
  induction h with
  | init => exact sized_construct N
  | @command s s1 c sent sock _ hstep ih =>
    cases c with
    | Connect address port =>
      rcases handleIncomingConnection_done_cases ih hstep with e | ⟨k, se, en, _, _, _, _, _, _, _, e⟩
      · rw [e]; exact ih
      · rw [e]; exact sized_acceptInto ih _ _ _ _ _
    | Disconnect client =>
      obtain ⟨_, en, _, e⟩ := handleDisconnect_done_cases ih hstep
      rw [e]; exact sized_dropSlot ih _ _
    | PlayerInput client keyState rx ry =>
      obtain ⟨se, en, _, _, e⟩ := handleKeyInput_done_cases hstep
      rw [e]; exact sized_withInput ih _ _ _ _ _ _
  | @tick s s1 sent sock _ hstep ih =>
    rw [tick_done_state ih hstep]
    exact sized_updatePlayersRef ih keys mv

theorem worldEntity_construct (N : Nat) :
    (Server.Server N).m_entities[N + 1]? =
      some { alive := true, transform := { position := ⟨20, 1, 20⟩, rotation := ⟨0, 0⟩ } } := by
  have hlen : ∀ (l : List Entity) (x : Entity), l.length = N + 2 →
      (l.set (N + 1) x)[N + 1]? = some x := fun l x hl =>
    List.getElem?_set_self (by omega)
  have hrep : ∀ x : Entity, (List.replicate (N + 2) x)[N + 1]? = some x := fun x => by
    rw [List.getElem?_replicate, if_pos (by omega)]
  simp only [Server.Server, List.map_replicate, hrep]
  rw [hlen _ _ (by simp)]
  simp only
  rw [hlen _ _ (by simp)]
  rfl

/-- Commands and ticks that run to completion leave the entity at index
`maxConnections + 1` as the constructor made it. -/
theorem worldEntity_of_reachableWithTicks {keys : PlayerInput} {mv : Movement} {N : Nat}
    {s : Server} (h : ReachableWithTicks keys mv N s) :
    s.m_entities[N + 1]? = (Server.Server N).m_entities[N + 1]? := by
  induction h with
  | init => rfl
  | @command s s1 c sent sock hr hstep ih =>
    have hs := sized_of_reachableWithTicks hr
    cases c with
    | Connect address port =>
      rcases handleIncomingConnection_done_cases hs hstep with
        e | ⟨k, se, en, _, _, hk, _, _, _, _, e⟩
      · rw [e]; exact ih
      · rw [e, ← ih]
        simp only [acceptInto]
        exact List.getElem?_set_ne (by omega)
    | Disconnect client =>
      obtain ⟨hc, en, _, e⟩ := handleDisconnect_done_cases hs hstep
      rw [e, ← ih]
      simp only [dropSlot]
      exact List.getElem?_set_ne (by omega)
    | PlayerInput client keyState rx ry =>
      obtain ⟨se, en, hse, _, e⟩ := handleKeyInput_done_cases hstep
      have hc : client < s.m_clientSessions.length := (List.getElem?_eq_some_iff.mp hse).1
      obtain ⟨_, h1, _, _⟩ := hs
      rw [e, ← ih]
      simp only [withInput]
      exact List.getElem?_set_ne (by omega)
  | @tick s s1 sent sock hr hstep ih =>
    have hs := sized_of_reachableWithTicks hr
    rw [tick_done_state hs hstep, updatePlayersRef_getElem?, ← ih]
    obtain ⟨_, _, h2, _⟩ := hs
    have hnone : s.m_clientStatuses[N + 1]? = none := List.getElem?_eq_none (by omega)
    simp [hnone]

theorem statuses_firstAccepted (n address port : Nat) :
    (firstAccepted (n + 1) address port).m_clientStatuses =
      ClientStatus.Connected :: List.replicate n ClientStatus.Disconnected := by
  simp [firstAccepted, acceptInto, Server.Server, List.replicate_succ]

theorem sessions_firstAccepted (n address port : Nat) :
    (firstAccepted (n + 1) address port).m_clientSessions =
      ⟨address, port, 0⟩ :: List.replicate n ClientSession.init := by
  simp [firstAccepted, acceptInto, Server.Server, List.replicate_succ, ClientSession.init]

theorem filter_firstAccepted (n m address port : Nat) :
    (List.range' 0 (m + 1)).filter
        (fun i => decide
          ((firstAccepted (n + 1) address port).m_clientStatuses[i]? =
            some ClientStatus.Connected)) = [0] := by
  rw [statuses_firstAccepted, List.range'_succ, List.filter_cons]
  simp only [List.getElem?_cons_zero, decide_True, if_true, List.cons.injEq, true_and]
  rw [List.filter_eq_nil_iff]
  intro i hi
  rw [List.mem_range'_1] at hi
  obtain ⟨j, rfl⟩ : ∃ j, i = j + 1 := ⟨i - 1, by omega⟩
  simp [List.getElem?_replicate]

theorem connectedSlots_firstAccepted (n address port : Nat) :
    connectedSlots (firstAccepted (n + 1) address port) = [0] := by
  unfold connectedSlots
  have hmax : (firstAccepted (n + 1) address port).m_maxConnections = n + 1 := rfl
  rw [hmax, List.range_eq_range']
  exact filter_firstAccepted n n address port

theorem toConnected_firstAccepted (n address port : Nat) (packet : Packet) :
    toConnected (firstAccepted (n + 1) address port) packet = [⟨packet, address, port⟩] := by
  unfold toConnected
  rw [connectedSlots_firstAccepted, sessions_firstAccepted]
  simp

/-- The broadcast loop split at its last iteration. -/
theorem sendToAllClientsFrom_succ_last (sock : Datagram → SocketStatus) (s : Server)
    (packet : Packet) :
    ∀ (n i : Nat) (ds : List Datagram) (flag : Bool) (d : List Datagram),
      sendToAllClientsFrom sock s packet n i = (ds, none) →
      sendToClient sock s (castClientId ((i + n : Nat) : Int)) packet = .ok (flag, d) →
      sendToAllClientsFrom sock s packet (n + 1) i = (ds ++ d, none) := by
  intro n
  induction n with
  | zero =>
    intro i ds flag d h0 h1
    simp only [sendToAllClientsFrom] at h0
    simp only [Nat.add_zero] at h1
    obtain ⟨rfl, _⟩ := Prod.mk.inj h0
    simp [sendToAllClientsFrom, h1]
  | succ n ih =>
    intro i ds flag d h0 h1
    rw [sendToAllClientsFrom] at h0 ⊢
    cases hst : sendToClient sock s (castClientId (i : Int)) packet with
    | error f => simp [hst] at h0
    | ok r =>
      obtain ⟨b, d0⟩ := r
      simp only [hst] at h0 ⊢
      obtain ⟨e1, e2⟩ := Prod.mk.inj h0
      have hrest : sendToAllClientsFrom sock s packet n (i + 1) =
          ((sendToAllClientsFrom sock s packet n (i + 1)).1, none) := Prod.ext rfl e2
      have h1' : sendToClient sock s (castClientId ((i + 1 + n : Nat) : Int)) packet =
          .ok (flag, d) := by
        rw [← h1]
        congr 3
        omega
      rw [ih (i + 1) _ flag d hrest h1', ← e1]
      simp

theorem sized_firstAccepted (N address port : Nat) : sized N (firstAccepted N address port) :=
  sized_acceptInto (sized_construct N) _ _ _ _ _

theorem sendToClient_firstAccepted (sock : Datagram → SocketStatus) (n address port : Nat)
    (packet : Packet) :
    sendToClient sock (firstAccepted (n + 1) address port) 0 packet =
      .ok (decide (sock ⟨packet, address, port⟩ = SocketStatus.Done),
        [⟨packet, address, port⟩]) := by
  unfold sendToClient
  rw [statuses_firstAccepted, sessions_firstAccepted]
  simp only [List.getElem?_cons_zero]

theorem sendToAllClientsFrom_firstAccepted (sock : Datagram → SocketStatus)
    (n m address port : Nat) (packet : Packet) (hm : m ≤ n) (hb : m + 1 ≤ 256) :
    sendToAllClientsFrom sock (firstAccepted (n + 1) address port) packet (m + 1) 0 =
      ([⟨packet, address, port⟩], none) := by
  obtain ⟨_, h1, h2, _⟩ := sized_firstAccepted (n + 1) address port
  rw [sendToAllClientsFrom_eq sock _ packet (m + 1) 0 (by omega) (by omega) (by omega),
    filter_firstAccepted n m address port, sessions_firstAccepted]
  simp

/-- Capacity 257 with one client, in slot 0: the broadcast hands the packet to
the socket twice for that client, at loop indices 0 and 256. -/
theorem sendToAllClients_firstAccepted (sock : Datagram → SocketStatus) (address port : Nat)
    (packet : Packet) :
    sendToAllClients sock (firstAccepted 257 address port) packet =
      ([⟨packet, address, port⟩, ⟨packet, address, port⟩], none) := by
  have hfirst := sendToAllClientsFrom_firstAccepted sock 256 255 address port packet
    (by omega) (by omega)
  have hz : castClientId ((0 + 256 : Nat) : Int) = 0 := by decide
  have hlast := sendToClient_firstAccepted sock 256 address port packet
  rw [← hz] at hlast
  exact sendToAllClientsFrom_succ_last sock _ packet 256 0 _ _ _ hfirst hlast

theorem notInTable_construct (N address port : Nat) (h : ¬ (address = 0 ∧ port = 0)) :
    notInTable (Server.Server N) address port := by
  intro e he hc
  simp only [Server.Server] at he
  rw [List.eq_of_mem_replicate he] at hc
  exact h ⟨hc.1.symm, hc.2.symm⟩

/-- The first Connect on a constructed server of capacity at least 1. -/
theorem handleIncomingConnection_first (sock : Datagram → SocketStatus) (n address port : Nat)
    (h : ¬ (address = 0 ∧ port = 0)) :
    handleIncomingConnection sock (Server.Server (n + 1)) address port =
      .done (firstAccepted (n + 1) address port)
        (⟨Packet.ConnectRequestResult .Success [0, castU8 ((n + 1 : Nat) : Int)],
            address, port⟩ ::
          (sendToAllClients sock (firstAccepted (n + 1) address port)
            (Packet.PlayerJoin 0)).1) := by
  have hs := sized_construct (n + 1)
  have hD : (Server.Server (n + 1)).m_clientStatuses[0]? = some ClientStatus.Disconnected := by
    simp [Server.Server, List.replicate_succ]
  have hf := findEmptySlot_eq_lowest hs hD (fun j hj => absurd hj (Nat.not_lt_zero j))
  obtain ⟨h0, h1, h2, h3⟩ := hs
  obtain ⟨session, entity, hse, hen, _, _, _, heq⟩ :=
    handleIncomingConnection_accept_raw sock (Server.Server (n + 1)) address port 0
      (by omega) (by omega) (by omega) (notInTable_construct _ _ _ h)
      (by simp [Server.Server]) hf
  have e1 : session = ClientSession.init := by
    simp [Server.Server, List.replicate_succ] at hse
    exact hse.symm
  have e2 : entity = ⟨true, Entity.init.transform⟩ := by
    simp [Server.Server, List.replicate_succ] at hen
    exact hen.symm
  subst e1 e2
  exact heq

/-- The first Connect on a constructed server of capacity at most 256. -/
theorem handleIncomingConnection_first_le (sock : Datagram → SocketStatus)
    (n address port : Nat) (hn : n + 1 ≤ 256) (h : ¬ (address = 0 ∧ port = 0)) :
    handleIncomingConnection sock (Server.Server (n + 1)) address port =
      .done (firstAccepted (n + 1) address port)
        [⟨Packet.ConnectRequestResult .Success [0, castU8 ((n + 1 : Nat) : Int)],
            address, port⟩, ⟨Packet.PlayerJoin 0, address, port⟩] := by
  obtain ⟨h0, h1, h2, _⟩ := sized_firstAccepted (n + 1) address port
  rw [handleIncomingConnection_first sock n address port h,
    sendToAllClients_eq sock _ _ (by omega) (by omega) (by omega),
    toConnected_firstAccepted]

/-- The first Connect on the constructed server of capacity 257. -/
theorem handleIncomingConnection_first_wide (sock : Datagram → SocketStatus)
    (address port : Nat) (h : ¬ (address = 0 ∧ port = 0)) :
    handleIncomingConnection sock (Server.Server 257) address port =
      .done (firstAccepted 257 address port)
        [⟨Packet.ConnectRequestResult .Success [0, 1], address, port⟩,
          ⟨Packet.PlayerJoin 0, address, port⟩, ⟨Packet.PlayerJoin 0, address, port⟩] := by
  have h1 := handleIncomingConnection_first sock 256 address port h
  rw [sendToAllClients_firstAccepted] at h1
  exact h1

set_option maxRecDepth 100000 in
/-- No slot below 256 is Connected once slot 0 of `highSlots` is dropped. -/
theorem highSlots_dropped_low (entity : Entity) (i : Nat) (hi : i < 256) :
    (dropSlot highSlots 0 entity).m_clientStatuses[i]? ≠ some ClientStatus.Connected := by
  simp only [dropSlot, highSlots]
  rw [List.getElem?_set]
  by_cases h0 : 0 = i
  · rw [if_pos h0]
    simp
  · rw [if_neg h0, List.getElem?_map, List.getElem?_range (by omega)]
    have hne : ¬ (i = 0 ∨ i = 256) := by omega
    simp [hne]

set_option maxRecDepth 100000 in
theorem filter_highSlots_dropped (entity : Entity) :
    (List.range' 0 256).filter
        (fun i => decide
          ((dropSlot highSlots 0 entity).m_clientStatuses[i]? =
            some ClientStatus.Connected)) = [] := by
  rw [List.filter_eq_nil_iff]
  intro i hi
  rw [List.mem_range'_1] at hi
  simpa using highSlots_dropped_low entity i (by omega)

set_option maxRecDepth 100000 in
theorem sendToAllClients_highSlots_dropped (sock : Datagram → SocketStatus) (entity : Entity)
    (packet : Packet) :
    sendToAllClients sock (dropSlot highSlots 0 entity) packet = ([], none) := by
  have hfirst : sendToAllClientsFrom sock (dropSlot highSlots 0 entity) packet 256 0 =
      ([], none) := by
    rw [sendToAllClientsFrom_eq sock _ packet 256 0 (by simp [dropSlot, highSlots])
      (by simp [dropSlot, highSlots]) (by omega), filter_highSlots_dropped]
    rfl
  have hlast : sendToClient sock (dropSlot highSlots 0 entity)
      (castClientId ((0 + 256 : Nat) : Int)) packet = .ok (false, []) := rfl
  exact sendToAllClientsFrom_succ_last sock _ packet 256 0 _ _ _ hfirst hlast

set_option maxRecDepth 100000 in
theorem handleDisconnect_highSlots (sock : Datagram → SocketStatus) :
    handleDisconnect sock highSlots 0 =
      .done (dropSlot highSlots 0 ⟨true, ⟨⟨10, 0, 10⟩, ⟨0, 0⟩⟩⟩) [] := by
  obtain ⟨entity, he, heq⟩ := handleDisconnect_raw sock highSlots 0 rfl rfl (by decide)
    (by decide)
  have e : entity = ⟨true, ⟨⟨10, 0, 10⟩, ⟨0, 0⟩⟩⟩ := by
    have h0 : highSlots.m_entities[0]? = some ⟨true, ⟨⟨10, 0, 10⟩, ⟨0, 0⟩⟩⟩ := rfl
    rw [h0] at he
    exact (Option.some.inj he).symm
  subst e
  rw [sendToAllClients_highSlots_dropped] at heq
  exact heq

set_option maxRecDepth 100000 in
theorem connectedSlots_highSlots_dropped (entity : Entity) :
    connectedSlots (dropSlot highSlots 0 entity) = [256] := by
  unfold connectedSlots
  have hmax : (dropSlot highSlots 0 entity).m_maxConnections = 256 + 1 := rfl
  rw [hmax, List.range_succ, List.filter_append, List.range_eq_range',
    filter_highSlots_dropped]
  rfl

set_option maxRecDepth 100000 in
theorem toConnected_highSlots_dropped (entity : Entity) (packet : Packet) :
    toConnected (dropSlot highSlots 0 entity) packet = [⟨packet, 257, 1000⟩] := by
  unfold toConnected
  rw [connectedSlots_highSlots_dropped]
  rfl

/-! ## Properties -/

/-- Requests that the duplicate guard lets through fill the slots in order.
Starting from a freshly constructed server with capacity `N < 256`, for every
sequence of `N + 1` Connect requests from pairwise distinct (address, port)
pairs, none of them held by a session of the fresh table: the requests before
the `k`-th all run to completion; each of the first `N` requests is answered
with `ConnectRequestResult{Success, slot, N}` for a slot in `[0, N)` that was
Disconnected and is Connected afterwards, the `N` slots being pairwise distinct;
and the `(N+1)`-th request is answered with the GameFull rejection only and
changes nothing. -/
theorem distinct_connects_fill_then_GameFull (N : Nat) (hN : N < 256)
    (sock : Datagram → SocketStatus) (reqs : List (Nat × Nat))
    (hlen : reqs.length = N + 1) (hnd : reqs.Nodup) (hdef : ∀ r ∈ reqs, r ≠ initEndpoint) :
    ∃ slots : List Nat, slots.length = N ∧ slots.Nodup ∧ (∀ x ∈ slots, x < N) ∧
      ∀ (k : Nat) (r : Nat × Nat), reqs[k]? = some r →
        ∃ (s : Server) (pre : List Datagram),
          recievePackets sock (Server.Server N) (connects (reqs.take k)) = .done s pre ∧
          (k < N → ∃ (slot : Nat) (s1 : Server), slots[k]? = some slot ∧
            s.m_clientStatuses[slot]? = some ClientStatus.Disconnected ∧
            handleIncomingConnection sock s r.1 r.2 =
              .done s1 (⟨Packet.ConnectRequestResult .Success [slot, N], r.1, r.2⟩ ::
                toConnected s1 (Packet.PlayerJoin slot)) ∧
            s1.m_clientStatuses[slot]? = some ClientStatus.Connected) ∧
          (k = N →
            handleIncomingConnection sock s r.1 r.2 =
              .done s [⟨Packet.ConnectRequestResult .GameFull [], r.1, r.2⟩]) := by
  refine ⟨List.range N, List.length_range N, List.nodup_range N,
    fun x hx => List.mem_range.mp hx, ?_⟩
  intro k r hk
  have hklt : k < reqs.length := (List.getElem?_eq_some_iff.mp hk).1
  have hr : r ≠ initEndpoint := hdef r (List.getElem?_mem hk)
  obtain ⟨s, pre, hrun, hfill⟩ := run_connects_filledTo hN sock hnd hdef k (by omega) (by omega)
  refine ⟨s, pre, hrun, ?_, ?_⟩
  · intro hkN
    obtain ⟨s1, hstep, hfill1⟩ := connect_of_filledTo hN sock hfill hnd hk hr hkN
    exact ⟨k, s1, List.getElem?_range hkN, hfill.2.2.2.1 k (le_refl k) hkN, hstep,
      hfill1.2.2.1 k (by omega)⟩
  · intro hkN
    have hg := notInTable_of_filledTo hfill hnd hk hr
    have hc : ¬ s.m_connections < (s.m_maxConnections : Int) := by
      rw [hfill.1.1, hfill.2.1]
      omega
    exact handleIncomingConnection_full sock s r.1 r.2 hg hc

theorem distinct_connects_fill_then_GameFull_example :
    (2 < 256) ∧ ([(1, 1001), (2, 1002), (1, 1002)] : List (Nat × Nat)).length = 2 + 1 ∧
    ([(1, 1001), (2, 1002), (1, 1002)] : List (Nat × Nat)).Nodup ∧
    (∀ r ∈ ([(1, 1001), (2, 1002), (1, 1002)] : List (Nat × Nat)), r ≠ initEndpoint) ∧
    ∃ slots : List Nat, slots.length = 2 ∧ slots.Nodup ∧ (∀ x ∈ slots, x < 2) ∧
      ∀ (k : Nat) (r : Nat × Nat),
        ([(1, 1001), (2, 1002), (1, 1002)] : List (Nat × Nat))[k]? = some r →
        ∃ (s : Server) (pre : List Datagram),
          recievePackets sockDone (Server.Server 2)
            (connects (([(1, 1001), (2, 1002), (1, 1002)] : List (Nat × Nat)).take k)) =
              .done s pre ∧
          (k < 2 → ∃ (slot : Nat) (s1 : Server), (slots[k]? = some slot) ∧
            s.m_clientStatuses[slot]? = some ClientStatus.Disconnected ∧
            handleIncomingConnection sockDone s r.1 r.2 =
              .done s1 (⟨Packet.ConnectRequestResult .Success [slot, 2], r.1, r.2⟩ ::
                toConnected s1 (Packet.PlayerJoin slot)) ∧
            s1.m_clientStatuses[slot]? = some ClientStatus.Connected) ∧
          (k = 2 →
            handleIncomingConnection sockDone s r.1 r.2 =
              .done s [⟨Packet.ConnectRequestResult .GameFull [], r.1, r.2⟩]) :=
  ⟨by decide, rfl, by decide, by decide,
    distinct_connects_fill_then_GameFull 2 (by decide) sockDone
      [(1, 1001), (2, 1002), (1, 1002)] rfl (by decide) (by decide)⟩

/-- C1 fails on the code. On a freshly constructed server of capacity 1 the two
Connect requests come from the distinct pairs (0, 0) and (1, 1001). The first
one is not answered with Success: the guard loop compares the requester with
the session of slot 0 although that slot is Disconnected and was never used,
finds the value-initialised endpoint (0, 0) there and returns, so nothing is
sent and no slot is assigned. The second request then takes slot 0, and no
request of the sequence is answered with GameFull. -/
theorem C1_request_matching_unused_session_is_dropped :
    ([(0, 0), (1, 1001)] : List (Nat × Nat)).Nodup ∧
    ([(0, 0), (1, 1001)] : List (Nat × Nat)).length = 1 + 1 ∧
    (Server.Server 1).m_clientSessions = [⟨0, 0, 0⟩] ∧
    (Server.Server 1).m_clientStatuses = [.Disconnected] ∧
    handleIncomingConnection sockDone (Server.Server 1) 0 0 = .done (Server.Server 1) [] ∧
    recievePackets sockDone (Server.Server 1) (connects [(0, 0), (1, 1001)]) =
      .done (afterRun 1 [.Connect 1 1001])
        [⟨.ConnectRequestResult .Success [0, 1], 1, 1001⟩, ⟨.PlayerJoin 0, 1, 1001⟩] :=
  ⟨by decide, rfl, rfl, rfl, rfl, rfl⟩

/-- C2. A Connect request whose (address, port) equals the endpoint stored for a
Connected slot hands nothing to the socket and leaves the whole server state
(statuses, sessions, entities, both counters) as it was. -/
theorem C2_connect_from_connected_endpoint_is_silent (sock : Datagram → SocketStatus)
    (s : Server) (address port i : Nat) (session : ClientSession)
    (_hstatus : s.m_clientStatuses[i]? = some ClientStatus.Connected)
    (hsession : s.m_clientSessions[i]? = some session)
    (haddr : session.address = address) (hport : session.port = port) :
    handleIncomingConnection sock s address port = .done s [] := by
  have hmem : session ∈ s.m_clientSessions := List.getElem?_mem hsession
  have hguard : s.m_clientSessions.any
      (fun endpoint => address == endpoint.address && port == endpoint.port) = true := by
    rw [List.any_eq_true]
    exact ⟨session, hmem, by simp [haddr, hport]⟩
  unfold handleIncomingConnection
  rw [hguard]
  rfl

theorem C2_connect_from_connected_endpoint_is_silent_witness :
    sampleServer.m_clientStatuses[2]? = some ClientStatus.Connected ∧
    sampleServer.m_clientSessions[2]? = some ⟨3, 1003, 0⟩ ∧
    handleIncomingConnection sockDone sampleServer 3 1003 = .done sampleServer [] :=
  ⟨by decide, by decide,
    C2_connect_from_connected_endpoint_is_silent sockDone sampleServer 3 1003 2 ⟨3, 1003, 0⟩
      (by decide) (by decide) rfl rfl⟩

/-- C7, amended. In a state whose tables are sized to the capacity and whose
capacity is below 256 (so that slot and capacity fit the one-byte fields that
carry them), when `handleIncomingConnection` accepts a request (the endpoint passes
the duplicate guard, the connection counter is below capacity and
`findEmptySlot` returns `slot ≥ 0`), it runs to completion and afterwards: slot
`slot` is Connected and holds the requester's address and port; entity `slot` is
alive at position (10, 0, 10); both counters are one higher; status, session and
entity of every other slot are unchanged; and the socket was handed first the
unicast `ConnectRequestResult{Success, slot, capacity}` for the requester and
then `PlayerJoin{slot}` for every Connected slot in ascending slot order, the new
slot included. -/
theorem C7_accept_effects (sock : Datagram → SocketStatus) (s : Server)
    (address port slot : Nat) (h : wf s) (hg : notInTable s address port)
    (hc : s.m_connections < (s.m_maxConnections : Int))
    (hf : findEmptySlot s = .ok (slot : Int)) :
    ∃ s1 : Server,
      handleIncomingConnection sock s address port =
        .done s1
          (⟨Packet.ConnectRequestResult .Success [slot, s.m_maxConnections], address, port⟩ ::
            toConnected s1 (Packet.PlayerJoin slot)) ∧
      s1.m_clientStatuses[slot]? = some ClientStatus.Connected ∧
      (∃ e, s1.m_clientSessions[slot]? = some e ∧ e.address = address ∧ e.port = port) ∧
      (∃ en, s1.m_entities[slot]? = some en ∧ en.alive = true ∧
        en.transform.position = ⟨10, 0, 10⟩) ∧
      s1.m_connections = s.m_connections + 1 ∧
      s1.m_aliveEntities = s.m_aliveEntities + 1 ∧
      s1.m_maxConnections = s.m_maxConnections ∧
      (∀ j, j ≠ slot →
        s1.m_clientStatuses[j]? = s.m_clientStatuses[j]? ∧
        s1.m_clientSessions[j]? = s.m_clientSessions[j]? ∧
        s1.m_entities[j]? = s.m_entities[j]?) ∧
      slot ∈ connectedSlots s1 ∧
      (⟨Packet.PlayerJoin slot, address, port⟩ : Datagram) ∈
        toConnected s1 (Packet.PlayerJoin slot) := by
  obtain ⟨session, entity, hs, he, hkN, _, _, heq⟩ :=
    handleIncomingConnection_accept sock s address port slot h hg hc hf
  obtain ⟨h1, h2, h3, _⟩ := h
  have hk1 : slot < s.m_clientStatuses.length := by omega
  have hk2 : slot < s.m_clientSessions.length := by omega
  have hk3 : slot < s.m_entities.length := by omega
  refine ⟨_, heq, ?_, ?_, ?_, rfl, rfl, rfl, ?_, ?_, ?_⟩
  · simp [acceptInto, hk1]
  · exact ⟨{ session with address := address, port := port }, by simp [acceptInto, hk2],
      rfl, rfl⟩
  · exact ⟨{ alive := true, transform := { entity.transform with position := ⟨10, 0, 10⟩ } },
      by simp [acceptInto, hk3], rfl, rfl⟩
  · intro j hj
    simp [acceptInto, List.getElem?_set_ne (Ne.symm hj)]
  · rw [mem_connectedSlots]
    exact ⟨hkN, by simp [acceptInto, hk1]⟩
  · unfold toConnected
    rw [List.mem_filterMap]
    refine ⟨slot, ?_, ?_⟩
    · rw [mem_connectedSlots]
      exact ⟨hkN, by simp [acceptInto, hk1]⟩
    · simp [acceptInto, hk2]

theorem C7_accept_effects_witness :
    wf sampleServer ∧ notInTable sampleServer 4 1004 ∧
    sampleServer.m_connections < (sampleServer.m_maxConnections : Int) ∧
    findEmptySlot sampleServer = .ok ((1 : Nat) : Int) ∧
    ∃ s1 : Server,
      handleIncomingConnection sockDone sampleServer 4 1004 =
        .done s1
          (⟨Packet.ConnectRequestResult .Success [1, sampleServer.m_maxConnections], 4, 1004⟩ ::
            toConnected s1 (Packet.PlayerJoin 1)) ∧
      s1.m_clientStatuses[1]? = some ClientStatus.Connected ∧
      (∃ e, s1.m_clientSessions[1]? = some e ∧ e.address = 4 ∧ e.port = 1004) ∧
      (∃ en, s1.m_entities[1]? = some en ∧ en.alive = true ∧
        en.transform.position = ⟨10, 0, 10⟩) ∧
      s1.m_connections = sampleServer.m_connections + 1 ∧
      s1.m_aliveEntities = sampleServer.m_aliveEntities + 1 ∧
      s1.m_maxConnections = sampleServer.m_maxConnections ∧
      (∀ j, j ≠ 1 →
        s1.m_clientStatuses[j]? = sampleServer.m_clientStatuses[j]? ∧
        s1.m_clientSessions[j]? = sampleServer.m_clientSessions[j]? ∧
        s1.m_entities[j]? = sampleServer.m_entities[j]?) ∧
      1 ∈ connectedSlots s1 ∧
      (⟨Packet.PlayerJoin 1, 4, 1004⟩ : Datagram) ∈ toConnected s1 (Packet.PlayerJoin 1) :=
  ⟨by decide, by decide, by decide, rfl,
    C7_accept_effects sockDone sampleServer 4 1004 1 (by decide) (by decide) (by decide) rfl⟩

/-- C8, amended. In a state whose tables are sized to the capacity and whose
capacity is at most 256, for a Connected slot `client` in `[0, maxConnections)`,
`handleDisconnect` runs to completion and afterwards: the slot is Disconnected and its entity is not
alive; both counters are one lower; the session table is untouched and status and
entity of every other slot are unchanged; and `PlayerLeave{client}` was handed to
the socket once for every slot that is Connected afterwards, in ascending slot
order, which are the previously Connected slots without `client`. -/
theorem C8_disconnect_effects (sock : Datagram → SocketStatus) (s : Server) (client : Nat)
    (h1 : s.m_clientSessions.length = s.m_maxConnections)
    (h2 : s.m_clientStatuses.length = s.m_maxConnections)
    (h3 : s.m_maxConnections + 2 ≤ s.m_entities.length)
    (h4 : s.m_maxConnections ≤ 256) (hc : client < s.m_maxConnections)
    (_hst : s.m_clientStatuses[client]? = some ClientStatus.Connected) :
    ∃ s1 : Server,
      handleDisconnect sock s client =
        .done s1 (toConnected s1 (Packet.PlayerLeave client)) ∧
      s1.m_clientStatuses[client]? = some ClientStatus.Disconnected ∧
      (∃ en, s1.m_entities[client]? = some en ∧ en.alive = false) ∧
      s1.m_connections = s.m_connections - 1 ∧
      s1.m_aliveEntities = s.m_aliveEntities - 1 ∧
      s1.m_maxConnections = s.m_maxConnections ∧
      s1.m_clientSessions = s.m_clientSessions ∧
      (∀ j, j ≠ client →
        s1.m_clientStatuses[j]? = s.m_clientStatuses[j]? ∧
        s1.m_entities[j]? = s.m_entities[j]?) ∧
      client ∉ connectedSlots s1 ∧
      connectedSlots s1 = (connectedSlots s).filter (fun j => decide (j ≠ client)) := by
  obtain ⟨entity, he, heq⟩ := handleDisconnect_eq sock s client h1 h2 h3 h4 hc
  have hk1 : client < s.m_clientStatuses.length := by omega
  have hk3 : client < s.m_entities.length := by omega
  refine ⟨_, heq, ?_, ?_, rfl, rfl, rfl, rfl, ?_, ?_, ?_⟩
  · simp [dropSlot, hk1]
  · exact ⟨{ entity with alive := false }, by simp [dropSlot, hk3], rfl⟩
  · intro j hj
    simp [dropSlot, List.getElem?_set_ne (Ne.symm hj)]
  · rw [mem_connectedSlots]
    simp [dropSlot, hk1]
  · unfold connectedSlots
    rw [List.filter_filter]
    apply List.filter_congr
    intro j _
    by_cases hj : client = j
    · subst hj
      simp [dropSlot, hk1]
    · simp [dropSlot, List.getElem?_set_ne hj, Ne.symm hj]

theorem C8_disconnect_effects_witness :
    sampleServer.m_clientSessions.length = sampleServer.m_maxConnections ∧
    sampleServer.m_clientStatuses.length = sampleServer.m_maxConnections ∧
    sampleServer.m_maxConnections + 2 ≤ sampleServer.m_entities.length ∧
    sampleServer.m_maxConnections ≤ 256 ∧ 2 < sampleServer.m_maxConnections ∧
    sampleServer.m_clientStatuses[2]? = some ClientStatus.Connected ∧
    ∃ s1 : Server,
      handleDisconnect sockDone sampleServer 2 =
        .done s1 (toConnected s1 (Packet.PlayerLeave 2)) ∧
      s1.m_clientStatuses[2]? = some ClientStatus.Disconnected ∧
      (∃ en, s1.m_entities[2]? = some en ∧ en.alive = false) ∧
      s1.m_connections = sampleServer.m_connections - 1 ∧
      s1.m_aliveEntities = sampleServer.m_aliveEntities - 1 ∧
      s1.m_maxConnections = sampleServer.m_maxConnections ∧
      s1.m_clientSessions = sampleServer.m_clientSessions ∧
      (∀ j, j ≠ 2 →
        s1.m_clientStatuses[j]? = sampleServer.m_clientStatuses[j]? ∧
        s1.m_entities[j]? = sampleServer.m_entities[j]?) ∧
      2 ∉ connectedSlots s1 ∧
      connectedSlots s1 = (connectedSlots sampleServer).filter (fun j => decide (j ≠ 2)) :=
  ⟨rfl, rfl, by decide, by decide, by decide, by decide,
    C8_disconnect_effects sockDone sampleServer 2 rfl rfl (by decide) (by decide) (by decide)
      (by decide)⟩

/-- C5. In every state reached from the constructed server by Connect,
Disconnect and PlayerInput commands that run to completion, two distinct
Connected slots never store the same (address, port) pair. -/
theorem C5_connected_endpoints_distinct (N : Nat) (s : Server)
    (h : ReachableBy anyCommand N s) :
    ∀ (i j : Nat) (ei ej : ClientSession), i ≠ j →
      s.m_clientStatuses[i]? = some ClientStatus.Connected →
      s.m_clientStatuses[j]? = some ClientStatus.Connected →
      s.m_clientSessions[i]? = some ei → s.m_clientSessions[j]? = some ej →
      ¬ (ei.address = ej.address ∧ ei.port = ej.port) := by
  induction h with
  | init =>
    intro i j ei ej _ hi _ _ _
    have hmem := List.getElem?_mem hi
    simp only [Server.Server] at hmem
    have := List.eq_of_mem_replicate hmem
    cases this
  | @step s s1 c sent sock hr _ hstep ih =>
    have hs := sized_of_reachable hr
    intro i j ei ej hij hi hj hei hej
    cases c with
    | Connect address port =>
      rcases handleIncomingConnection_done_cases hs hstep with
        e | ⟨k, se, en, hg, _, hkN, _, _, hse, _, e⟩
      · subst e
        exact ih i j ei ej hij hi hj hei hej
      · subst e
        have hklen : k < s.m_clientSessions.length := by
          obtain ⟨_, h1, _, _⟩ := hs
          omega
        simp only [acceptInto] at hi hj hei hej
        by_cases hik : i = k
        · subst hik
          rw [List.getElem?_set_self hklen] at hei
          rw [List.getElem?_set_ne hij] at hej
          injection hei with hei
          subst hei
          intro hc
          exact hg ej (List.getElem?_mem hej) ⟨hc.1.symm, hc.2.symm⟩
        · by_cases hjk : j = k
          · subst hjk
            rw [List.getElem?_set_self hklen] at hej
            rw [List.getElem?_set_ne (Ne.symm hik)] at hei
            injection hej with hej
            subst hej
            intro hc
            exact hg ei (List.getElem?_mem hei) hc
          · rw [List.getElem?_set_ne (Ne.symm hik)] at hi hei
            rw [List.getElem?_set_ne (Ne.symm hjk)] at hj hej
            exact ih i j ei ej hij hi hj hei hej
    | Disconnect client =>
      obtain ⟨_, en, _, e⟩ := handleDisconnect_done_cases hs hstep
      subst e
      have hi0 := (status_dropSlot_connected hi).2
      have hj0 := (status_dropSlot_connected hj).2
      exact ih i j ei ej hij hi0 hj0 hei hej
    | PlayerInput client keyState rx ry =>
      obtain ⟨se, en, hse, _, e⟩ := handleKeyInput_done_cases hstep
      subst e
      obtain ⟨ei0, hei0, a1, a2⟩ := session_withInput hse hei
      obtain ⟨ej0, hej0, b1, b2⟩ := session_withInput hse hej
      have := ih i j ei0 ej0 hij hi hj hei0 hej0
      rw [a1, a2, b1, b2] at this
      exact this

theorem C5_connected_endpoints_distinct_witness :
    ReachableBy anyCommand 2
        (afterRun 2 [.Connect 1 1001, .Connect 2 1002, .Disconnect 0, .Connect 3 1003]) ∧
    ∀ (i j : Nat) (ei ej : ClientSession), i ≠ j →
      (afterRun 2 [.Connect 1 1001, .Connect 2 1002, .Disconnect 0,
        .Connect 3 1003]).m_clientStatuses[i]? = some ClientStatus.Connected →
      (afterRun 2 [.Connect 1 1001, .Connect 2 1002, .Disconnect 0,
        .Connect 3 1003]).m_clientStatuses[j]? = some ClientStatus.Connected →
      (afterRun 2 [.Connect 1 1001, .Connect 2 1002, .Disconnect 0,
        .Connect 3 1003]).m_clientSessions[i]? = some ei →
      (afterRun 2 [.Connect 1 1001, .Connect 2 1002, .Disconnect 0,
        .Connect 3 1003]).m_clientSessions[j]? = some ej →
      ¬ (ei.address = ej.address ∧ ei.port = ej.port) :=
  ⟨reachable_of_recievePackets sockDone
      [.Connect 1 1001, .Connect 2 1002, .Disconnect 0, .Connect 3 1003] _ _ _
      ReachableBy.init rfl,
    C5_connected_endpoints_distinct 2 _
      (reachable_of_recievePackets sockDone
        [.Connect 1 1001, .Connect 2 1002, .Disconnect 0, .Connect 3 1003] _ _ _
        ReachableBy.init rfl)⟩

/-- C4, amended. In every state reached from the constructed server by Connect,
Disconnect and PlayerInput commands whose payload slot index is in
`[0, maxConnections)` and whose Disconnect commands name a slot that is Connected
when they arrive, the counter `m_connections` equals the number of Connected
slots; and in such a state every such command runs to completion. -/
theorem C4_counter_equals_connected_slots (N : Nat) (s : Server)
    (h : ReachableBy fromConnectedClient N s) :
    s.m_connections = (connectedCount s : Int) ∧
    ∀ (sock : Datagram → SocketStatus) (c : Command), fromConnectedClient s c →
      ∃ s1 sent, dispatch sock s c = .done s1 sent := by
  have hs := sized_of_reachable h
  have heq : s.m_connections = (connectedCount s : Int) := by
    clear hs
    induction h with
    | init =>
      rw [connectedCount_construct]
      rfl
    | @step s s1 c sent sock hr hallowed hstep ih =>
      have hs := sized_of_reachable hr
      cases c with
      | Connect address port =>
        rcases handleIncomingConnection_done_cases hs hstep with
          e | ⟨k, se, en, _, _, _, hk, _, _, _, e⟩
        · rw [e]; exact ih
        · rw [e, connectedCount_acceptInto s k address port se en hk]
          simp only [acceptInto]
          push_cast
          omega
      | Disconnect client =>
        obtain ⟨_, en, _, e⟩ := handleDisconnect_done_cases hs hstep
        have := connectedCount_dropSlot_connected s client en hallowed
        rw [e]
        simp only [dropSlot] at this ⊢
        omega
      | PlayerInput client keyState rx ry =>
        obtain ⟨se, en, _, _, e⟩ := handleKeyInput_done_cases hstep
        rw [e, connectedCount_withInput]
        exact ih
  refine ⟨heq, ?_⟩
  intro sock c hallowed
  obtain ⟨h0, h1, h2, h3⟩ := hs
  cases c with
  | Connect address port =>
    simp only [dispatch]
    by_cases hg : notInTable s address port
    · by_cases hc : s.m_connections < (s.m_maxConnections : Int)
      · rcases findEmptySlot_spec s (by omega) with ⟨k, hf, _, _, _⟩ | ⟨_, hall⟩
        · obtain ⟨session, entity, _, _, _, _, _, a6⟩ :=
            handleIncomingConnection_accept_raw sock s address port k (by omega) (by omega)
              (by omega) hg hc hf
          exact ⟨_, _, a6⟩
        · have := connectedCount_of_all_connected ⟨h0, h1, h2, h3⟩ hall
          omega
      · exact ⟨_, _, handleIncomingConnection_full sock s address port hg hc⟩
    · exact ⟨_, _, handleIncomingConnection_inTable sock s address port hg⟩
  | Disconnect client =>
    simp only [dispatch]
    have hlt : client < s.m_clientStatuses.length :=
      (List.getElem?_eq_some_iff.mp hallowed).1
    obtain ⟨entity, _, heq⟩ :=
      handleDisconnect_raw sock s client (by omega) (by omega) (by omega) (by omega)
    exact ⟨_, _, heq⟩
  | PlayerInput client keyState rx ry =>
    have hlt : client < s.m_maxConnections := hallowed
    have hs1 : client < s.m_clientSessions.length := by omega
    have hs2 : client < s.m_entities.length := by omega
    simp only [dispatch, handleKeyInput, hs1, hs2, dite_true]
    exact ⟨_, _, rfl⟩

theorem C4_counter_equals_connected_slots_witness :
    ReachableBy fromConnectedClient 2
        (afterRun 2 [.Connect 1 1001, .Connect 2 1002, .Disconnect 0]) ∧
    (afterRun 2 [.Connect 1 1001, .Connect 2 1002, .Disconnect 0]).m_connections =
        (connectedCount (afterRun 2 [.Connect 1 1001, .Connect 2 1002, .Disconnect 0]) : Int) ∧
    ∀ (sock : Datagram → SocketStatus) (c : Command),
      fromConnectedClient (afterRun 2 [.Connect 1 1001, .Connect 2 1002, .Disconnect 0]) c →
      ∃ s1 sent,
        dispatch sock (afterRun 2 [.Connect 1 1001, .Connect 2 1002, .Disconnect 0]) c =
          .done s1 sent :=
  have hreach : ReachableBy fromConnectedClient 2
      (afterRun 2 [.Connect 1 1001, .Connect 2 1002, .Disconnect 0]) :=
    ReachableBy.step (c := .Disconnect 0) (s := afterRun 2 [.Connect 1 1001, .Connect 2 1002])
      sockDone
      (ReachableBy.step (c := .Connect 2 1002) (s := afterRun 2 [.Connect 1 1001]) sockDone
        (ReachableBy.step (c := .Connect 1 1001) (s := Server.Server 2) sockDone
          ReachableBy.init trivial rfl)
        trivial rfl)
      (by decide) rfl
  ⟨hreach, C4_counter_equals_connected_slots 2 _ hreach⟩

/-- C4 as stated fails: a Disconnect for slot 0 of a freshly constructed server of
capacity 1 (payload index in range, slot not Connected) runs to completion and
leaves `m_connections = -1` while no slot is Connected. -/
theorem C4_counterexample :
    ReachableBy payloadInRange 1 afterStrayDisconnect ∧
    afterStrayDisconnect.m_connections = -1 ∧
    connectedCount afterStrayDisconnect = 0 ∧
    afterStrayDisconnect.m_connections ≠ (connectedCount afterStrayDisconnect : Int) :=
  ⟨ReachableBy.step (c := .Disconnect 0) (s := Server.Server 1) sockDone ReachableBy.init
      (by decide) rfl,
    rfl, rfl, by decide⟩

/-- C3 fails on the code. Capacity 1: client (1, 1001) connects and disconnects.
The server is then empty (counter 0 below capacity 1, no Connected slot), but the
endpoint is still written in the session of the Disconnected slot 0, so the
guard drops the client's next Connect: nothing is sent and nothing changes,
instead of the Success the claim asks for. -/
theorem C3_reconnect_after_disconnect_is_dropped :
    ReachableBy anyCommand 1 (afterRun 1 [.Connect 1 1001, .Disconnect 0]) ∧
    (afterRun 1 [.Connect 1 1001, .Disconnect 0]).m_connections = 0 ∧
    (afterRun 1 [.Connect 1 1001, .Disconnect 0]).m_maxConnections = 1 ∧
    connectedSlots (afterRun 1 [.Connect 1 1001, .Disconnect 0]) = [] ∧
    (afterRun 1 [.Connect 1 1001, .Disconnect 0]).m_clientStatuses = [.Disconnected] ∧
    (afterRun 1 [.Connect 1 1001, .Disconnect 0]).m_clientSessions = [⟨1, 1001, 0⟩] ∧
    handleIncomingConnection sockDone (afterRun 1 [.Connect 1 1001, .Disconnect 0]) 1 1001 =
      .done (afterRun 1 [.Connect 1 1001, .Disconnect 0]) [] :=
  ⟨reachable_of_recievePackets sockDone [.Connect 1 1001, .Disconnect 0] _ _ _
      ReachableBy.init rfl,
    rfl, rfl, by decide, rfl, rfl, rfl⟩

/-- C6 fails on the code. Right after construction (capacity 2) both slots are
Disconnected while both of their entities are alive: the constructor's loop sets
`alive = true` for every entity of the table. -/
theorem C6_constructed_server_has_alive_entities_in_empty_slots :
    (Server.Server 2).m_clientStatuses = [.Disconnected, .Disconnected] ∧
    (Server.Server 2).m_entities.map (fun e => e.alive) = [true, true, true, true] ∧
    ((Server.Server 2).m_entities[0]?).map (fun e => e.alive) = some true ∧
    (Server.Server 2).m_clientStatuses[0]? ≠ some ClientStatus.Connected :=
  ⟨rfl, rfl, rfl, by decide⟩

/-- C10 fails on the code. Capacity 1: a stray Disconnect(0) and then a Connect
from (1, 1001) leave slot 0 Connected with the counter at 0, below capacity. A
Connect from the new endpoint (2, 1002) then finds no free slot
(`findEmptySlot` returns -1) and sends the GameFull rejection, but does not stop:
it goes on into the accepting code with slot -1, whose first statement writes the
status table at index -1. -/
theorem C10_no_free_slot_falls_through_after_rejection :
    ReachableBy anyCommand 1 (afterRun 1 [.Disconnect 0, .Connect 1 1001]) ∧
    (afterRun 1 [.Disconnect 0, .Connect 1 1001]).m_connections = 0 ∧
    (afterRun 1 [.Disconnect 0, .Connect 1 1001]).m_maxConnections = 1 ∧
    (afterRun 1 [.Disconnect 0, .Connect 1 1001]).m_clientStatuses = [.Connected] ∧
    findEmptySlot (afterRun 1 [.Disconnect 0, .Connect 1 1001]) = .ok (-1) ∧
    notInTable (afterRun 1 [.Disconnect 0, .Connect 1 1001]) 2 1002 ∧
    handleIncomingConnection sockDone (afterRun 1 [.Disconnect 0, .Connect 1 1001]) 2 1002 =
      .fault (.statusOutOfRange (-1)) [sendRejection .GameFull 2 1002] ∧
    handleIncomingConnection sockDone (afterRun 1 [.Disconnect 0, .Connect 1 1001]) 2 1002 ≠
      .done (afterRun 1 [.Disconnect 0, .Connect 1 1001]) [sendRejection .GameFull 2 1002] :=
  ⟨reachable_of_recievePackets sockDone [.Disconnect 0, .Connect 1 1001] _ _ _
      ReachableBy.init rfl,
    rfl, rfl, rfl, rfl, by decide, rfl, by decide⟩

/-- C11. When the connection counter is not below capacity and the requesting
endpoint passes the duplicate guard, `handleIncomingConnection` hands exactly one
datagram to the socket, the `ConnectRequestResult{GameFull}` rejection addressed
to the requester's address and port, and leaves the whole state (statuses,
sessions, entities, both counters) as it was. -/
theorem C11_full_server_rejects_with_GameFull (sock : Datagram → SocketStatus) (s : Server)
    (address port : Nat) (hg : notInTable s address port)
    (hc : ¬ s.m_connections < (s.m_maxConnections : Int)) :
    handleIncomingConnection sock s address port =
      .done s [⟨Packet.ConnectRequestResult .GameFull [], address, port⟩] :=
  handleIncomingConnection_full sock s address port hg hc

theorem C11_full_server_rejects_with_GameFull_witness :
    notInTable (afterRun 2 [.Connect 1 1001, .Connect 2 1002]) 3 1003 ∧
    ¬ (afterRun 2 [.Connect 1 1001, .Connect 2 1002]).m_connections <
        ((afterRun 2 [.Connect 1 1001, .Connect 2 1002]).m_maxConnections : Int) ∧
    handleIncomingConnection sockDone (afterRun 2 [.Connect 1 1001, .Connect 2 1002]) 3 1003 =
      .done (afterRun 2 [.Connect 1 1001, .Connect 2 1002])
        [⟨Packet.ConnectRequestResult .GameFull [], 3, 1003⟩] :=
  ⟨by decide, by decide,
    C11_full_server_rejects_with_GameFull sockDone
      (afterRun 2 [.Connect 1 1001, .Connect 2 1002]) 3 1003 (by decide) (by decide)⟩

/-- C12. For every status table with one entry per slot, `findEmptySlot` returns
a result; it returns the index `k` exactly when `k` is in `[0, maxConnections)`,
slot `k` is Disconnected and every slot below `k` is Connected (the smallest
Disconnected index); and it returns -1 exactly when every slot is Connected. It
only reads the state: the embedding is a function of the state that yields
nothing but the result. -/
theorem C12_findEmptySlot_returns_lowest_free_slot (s : Server)
    (h2 : s.m_clientStatuses.length = s.m_maxConnections) :
    (∃ r : Int, findEmptySlot s = .ok r ∧ (r = -1 ∨ ∃ k : Nat, r = (k : Int))) ∧
    (∀ k : Nat, findEmptySlot s = .ok (k : Int) ↔
      (k < s.m_maxConnections ∧ s.m_clientStatuses[k]? = some ClientStatus.Disconnected ∧
        ∀ j, j < k → s.m_clientStatuses[j]? = some ClientStatus.Connected)) ∧
    (findEmptySlot s = .ok (-1) ↔
      ∀ j, j < s.m_maxConnections → s.m_clientStatuses[j]? = some ClientStatus.Connected) := by
  refine ⟨?_, ?_, ?_⟩
  · rcases findEmptySlot_spec s h2 with ⟨k, hf, _⟩ | ⟨hf, _⟩
    · exact ⟨k, hf, Or.inr ⟨k, rfl⟩⟩
    · exact ⟨-1, hf, Or.inl rfl⟩
  · intro k
    constructor
    · exact findEmptySlot_ok_nat s h2 k
    · rintro ⟨hk, hD, hC⟩
      rcases findEmptySlot_spec s h2 with ⟨k1, hf, _, hkD, hkC⟩ | ⟨_, hall⟩
      · rcases Nat.lt_trichotomy k1 k with hlt | heq | hgt
        · rw [hC k1 hlt] at hkD
          cases hkD
        · rw [hf, heq]
        · rw [hkC k hgt] at hD
          cases hD
      · rw [hall k hk] at hD
        cases hD
  · constructor
    · intro hf
      rcases findEmptySlot_spec s h2 with ⟨k1, hf1, _⟩ | ⟨_, hall⟩
      · rw [hf] at hf1
        injection hf1 with hf1
        omega
      · exact hall
    · intro hall
      rcases findEmptySlot_spec s h2 with ⟨k1, _, hk1, hkD, _⟩ | ⟨hf, _⟩
      · rw [hall k1 hk1] at hkD
        cases hkD
      · exact hf

theorem C12_findEmptySlot_returns_lowest_free_slot_witness :
    sampleServer.m_clientStatuses.length = sampleServer.m_maxConnections ∧
    findEmptySlot sampleServer = .ok ((1 : Nat) : Int) ∧
    ((∃ r : Int, findEmptySlot sampleServer = .ok r ∧ (r = -1 ∨ ∃ k : Nat, r = (k : Int))) ∧
    (∀ k : Nat, findEmptySlot sampleServer = .ok (k : Int) ↔
      (k < sampleServer.m_maxConnections ∧
        sampleServer.m_clientStatuses[k]? = some ClientStatus.Disconnected ∧
        ∀ j, j < k → sampleServer.m_clientStatuses[j]? = some ClientStatus.Connected)) ∧
    (findEmptySlot sampleServer = .ok (-1) ↔
      ∀ j, j < sampleServer.m_maxConnections →
        sampleServer.m_clientStatuses[j]? = some ClientStatus.Connected)) :=
  ⟨rfl, rfl, C12_findEmptySlot_returns_lowest_free_slot sampleServer rfl⟩

/-- C18, amended. In a state whose tables are sized to the capacity and whose
capacity is at most 256, whatever the socket reports: `sendToClient` for a
Disconnected slot returns false and hands nothing to the socket; for a Connected
slot it hands the packet to the socket exactly once, with the address and port
stored for that slot, and returns true exactly when the socket reports Done.
`sendToAllClients` ends without a fault and hands over exactly one datagram per
Connected slot and none for any other slot: the Connected slots are taken in
strictly ascending order, each has a stored session, and the datagrams are the
packet addressed to those sessions in that order. -/
theorem C18_send_helpers (sock : Datagram → SocketStatus) (s : Server) (packet : Packet)
    (h1 : s.m_clientSessions.length = s.m_maxConnections)
    (h2 : s.m_clientStatuses.length = s.m_maxConnections)
    (h4 : s.m_maxConnections ≤ 256) :
    (∀ id, s.m_clientStatuses[id]? = some ClientStatus.Disconnected →
      sendToClient sock s id packet = .ok (false, [])) ∧
    (∀ id session, s.m_clientStatuses[id]? = some ClientStatus.Connected →
      s.m_clientSessions[id]? = some session →
      sendToClient sock s id packet =
        .ok (decide (sock ⟨packet, session.address, session.port⟩ = SocketStatus.Done),
          [⟨packet, session.address, session.port⟩])) ∧
    (∀ i, i ∈ connectedSlots s ↔
      (i < s.m_maxConnections ∧ s.m_clientStatuses[i]? = some ClientStatus.Connected)) ∧
    (connectedSlots s).Pairwise (fun a b => a < b) ∧
    ∃ held : List ClientSession,
      (connectedSlots s).map (fun i => s.m_clientSessions[i]?) = held.map some ∧
      sendToAllClients sock s packet =
        (held.map (fun e => (⟨packet, e.address, e.port⟩ : Datagram)), none) := by
  refine ⟨?_, ?_, mem_connectedSlots s, ?_, ?_⟩
  · intro id hid
    simp [sendToClient, hid]
  · intro id session hid hsess
    simp [sendToClient, hid, hsess]
  · exact List.Pairwise.filter _ (List.pairwise_lt_range _)
  · obtain ⟨held, e1, e2⟩ :=
      filterMap_sessions_eq_map s.m_clientSessions
        (fun e => (⟨packet, e.address, e.port⟩ : Datagram)) (connectedSlots s)
        (fun i hi => by
          have := ((mem_connectedSlots s i).mp hi).1
          omega)
    refine ⟨held, e1, ?_⟩
    rw [sendToAllClients_eq sock s packet h2 h1 h4]
    exact congrArg (fun l => (l, (none : Option Fault))) e2

theorem C18_send_helpers_witness :
    sampleServer.m_clientSessions.length = sampleServer.m_maxConnections ∧
    sampleServer.m_clientStatuses.length = sampleServer.m_maxConnections ∧
    sampleServer.m_maxConnections ≤ 256 ∧
    sendToClient sockDone sampleServer 1 (Packet.PlayerLeave 1) = .ok (false, []) ∧
    sendToClient (fun _ => SocketStatus.NotReady) sampleServer 2 (Packet.PlayerLeave 1) =
      .ok (false, [⟨Packet.PlayerLeave 1, 3, 1003⟩]) ∧
    sendToAllClients (fun _ => SocketStatus.Error) sampleServer (Packet.PlayerLeave 1) =
      ([⟨Packet.PlayerLeave 1, 1, 1001⟩, ⟨Packet.PlayerLeave 1, 3, 1003⟩], none) ∧
    ((∀ id, sampleServer.m_clientStatuses[id]? = some ClientStatus.Disconnected →
      sendToClient sockDone sampleServer id (Packet.PlayerLeave 1) = .ok (false, [])) ∧
    (∀ id session, sampleServer.m_clientStatuses[id]? = some ClientStatus.Connected →
      sampleServer.m_clientSessions[id]? = some session →
      sendToClient sockDone sampleServer id (Packet.PlayerLeave 1) =
        .ok (decide (sockDone ⟨Packet.PlayerLeave 1, session.address, session.port⟩ =
            SocketStatus.Done),
          [⟨Packet.PlayerLeave 1, session.address, session.port⟩])) ∧
    (∀ i, i ∈ connectedSlots sampleServer ↔
      (i < sampleServer.m_maxConnections ∧
        sampleServer.m_clientStatuses[i]? = some ClientStatus.Connected)) ∧
    (connectedSlots sampleServer).Pairwise (fun a b => a < b) ∧
    ∃ held : List ClientSession,
      (connectedSlots sampleServer).map (fun i => sampleServer.m_clientSessions[i]?) =
        held.map some ∧
      sendToAllClients sockDone sampleServer (Packet.PlayerLeave 1) =
        (held.map (fun e => (⟨Packet.PlayerLeave 1, e.address, e.port⟩ : Datagram)), none)) :=
  ⟨rfl, rfl, by decide, rfl, rfl, rfl,
    C18_send_helpers sockDone sampleServer (Packet.PlayerLeave 1) rfl rfl (by decide)⟩

/-- C15. On tables sized to the capacity, `updatePlayers` ends without a fault
and its result is the reference `updatePlayersRef`: the entity of every
Connected slot in `[0, maxConnections)` receives `moveForwards` once if the
Forward bit of the stored bitmask is set, otherwise `moveBackwards` once if the
Back bit is set, and then `moveLeft` once if the Left bit is set, otherwise
`moveRight` once if the Right bit is set; when all four bits are set only
`moveForwards` and `moveLeft` are applied; entities of Disconnected slots and
entities at index `maxConnections` and above are unchanged, and so is the rest
of the state. -/
theorem C15_updatePlayers_refines_reference (keys : PlayerInput) (mv : Movement) (s : Server)
    (h1 : s.m_clientSessions.length = s.m_maxConnections)
    (h2 : s.m_clientStatuses.length = s.m_maxConnections)
    (h3 : s.m_maxConnections ≤ s.m_entities.length) :
    updatePlayers keys mv s = .ok (updatePlayersRef keys mv s) ∧
    (∀ j session e, j < s.m_maxConnections →
      s.m_clientStatuses[j]? = some ClientStatus.Connected →
      s.m_clientSessions[j]? = some session → s.m_entities[j]? = some e →
      (updatePlayersRef keys mv s).m_entities[j]? =
        some (applyInputRef keys mv session.keyState e)) ∧
    (∀ j, (s.m_maxConnections ≤ j ∨ s.m_clientStatuses[j]? = some ClientStatus.Disconnected) →
      (updatePlayersRef keys mv s).m_entities[j]? = s.m_entities[j]?) ∧
    (∀ input e, input.testBit keys.forwardsBit = true → input.testBit keys.backBit = true →
      input.testBit keys.leftBit = true → input.testBit keys.rightBit = true →
      applyKeys keys mv input e = mv.moveLeft (mv.moveForwards e)) := by
  refine ⟨updatePlayers_eq_ref keys mv s h1 h2 h3, ?_, ?_, ?_⟩
  · intro j session e hj hst hse he
    rw [updatePlayersRef_getElem?, he, hst, hse]
    simp [hj]
  · intro j hj
    rw [updatePlayersRef_getElem?]
    rcases hj with hj | hj
    · have hnone : s.m_clientStatuses[j]? = none :=
        List.getElem?_eq_none (by omega)
      simp [hnone]
    · simp [hj]
  · intro input e hf _ hl _
    simp [applyKeys_eq_ref, applyInputRef, hf, hl]

theorem C15_updatePlayers_refines_reference_witness :
    inputServer.m_clientSessions.length = inputServer.m_maxConnections ∧
    inputServer.m_clientStatuses.length = inputServer.m_maxConnections ∧
    inputServer.m_maxConnections ≤ inputServer.m_entities.length ∧
    (updatePlayersRef sampleKeys sampleMovement inputServer).m_entities.map
        (fun e => e.transform.position) =
      [⟨10, 0, 11⟩, ⟨12, 0, 9⟩, ⟨9, 0, 10⟩, ⟨0, 0, 0⟩, ⟨20, 1, 20⟩] ∧
    (updatePlayers sampleKeys sampleMovement inputServer =
        .ok (updatePlayersRef sampleKeys sampleMovement inputServer) ∧
    (∀ j session e, j < inputServer.m_maxConnections →
      inputServer.m_clientStatuses[j]? = some ClientStatus.Connected →
      inputServer.m_clientSessions[j]? = some session → inputServer.m_entities[j]? = some e →
      (updatePlayersRef sampleKeys sampleMovement inputServer).m_entities[j]? =
        some (applyInputRef sampleKeys sampleMovement session.keyState e)) ∧
    (∀ j, (inputServer.m_maxConnections ≤ j ∨
        inputServer.m_clientStatuses[j]? = some ClientStatus.Disconnected) →
      (updatePlayersRef sampleKeys sampleMovement inputServer).m_entities[j]? =
        inputServer.m_entities[j]?) ∧
    (∀ input e, input.testBit sampleKeys.forwardsBit = true →
      input.testBit sampleKeys.backBit = true →
      input.testBit sampleKeys.leftBit = true → input.testBit sampleKeys.rightBit = true →
      applyKeys sampleKeys sampleMovement input e =
        sampleMovement.moveLeft (sampleMovement.moveForwards e))) :=
  ⟨rfl, rfl, by decide, by decide,
    C15_updatePlayers_refines_reference sampleKeys sampleMovement inputServer rfl rfl
      (by decide)⟩

/-- C14 fails on the code. Capacity 2, after two clients connected and the first
one left: entity 0 is not alive, so the `WorldState` packet carries three
records (entities 1, 2 and 3), but its count field is 4, the size of the entity
table, which `sendPackets` writes whatever the number of alive entities is. -/
theorem C14_count_field_is_table_size :
    oneLeft.m_entities.map (fun e => e.alive) = [false, true, true, true] ∧
    worldStatePacket oneLeft =
      some (Packet.WorldState 4
        [⟨1, 10, 0, 10, 0, 0⟩, ⟨2, 0, 0, 0, 0, 0⟩, ⟨3, 20, 1, 20, 0, 0⟩]) ∧
    sendPackets sockDone oneLeft =
      some (.done oneLeft
        [⟨Packet.WorldState 4
            [⟨1, 10, 0, 10, 0, 0⟩, ⟨2, 0, 0, 0, 0, 0⟩, ⟨3, 20, 1, 20, 0, 0⟩], 2, 1002⟩]) ∧
    (oneLeft.m_entities.filter (fun e => e.alive)).length = 3 ∧
    oneLeft.m_entities.length = 4 ∧
    oneLeft.m_aliveEntities = 1 :=
  ⟨rfl, rfl, rfl, rfl, rfl, rfl⟩

/-- C16, amended. The entity at index `maxConnections + 1` is alive at position
(20, 1, 20) after construction, and in every state reached from the constructed
server by client commands and ticks, in any order, that run to completion (no
table access out of range, which confines payload slot indices to
`[0, maxConnections)`), it is the same entity: still alive, transform
unchanged. -/
theorem C16_world_entity_untouched (keys : PlayerInput) (mv : Movement) (N : Nat) (s : Server)
    (h : ReachableWithTicks keys mv N s) :
    (∃ e, (Server.Server N).m_entities[N + 1]? = some e ∧ e.alive = true ∧
      e.transform.position = ⟨20, 1, 20⟩) ∧
    s.m_entities[N + 1]? = (Server.Server N).m_entities[N + 1]? ∧
    (∃ e, s.m_entities[N + 1]? = some e ∧ e.alive = true ∧
      e.transform.position = ⟨20, 1, 20⟩) := by
  have hsame := worldEntity_of_reachableWithTicks h
  have hinit := worldEntity_construct N
  exact ⟨⟨⟨true, ⟨⟨20, 1, 20⟩, ⟨0, 0⟩⟩⟩, hinit, rfl, rfl⟩, hsame,
    ⟨⟨true, ⟨⟨20, 1, 20⟩, ⟨0, 0⟩⟩⟩, hsame.trans hinit, rfl, rfl⟩⟩

theorem C16_world_entity_untouched_witness :
    ReachableWithTicks sampleKeys sampleMovement 1 forwardsHeldTicked ∧
    forwardsHeldTicked.m_entities.map (fun e => e.transform.position) =
      [⟨10, 0, 11⟩, ⟨0, 0, 0⟩, ⟨20, 1, 20⟩] ∧
    ((∃ e, (Server.Server 1).m_entities[1 + 1]? = some e ∧ e.alive = true ∧
      e.transform.position = ⟨20, 1, 20⟩) ∧
    forwardsHeldTicked.m_entities[1 + 1]? = (Server.Server 1).m_entities[1 + 1]? ∧
    (∃ e, forwardsHeldTicked.m_entities[1 + 1]? = some e ∧ e.alive = true ∧
      e.transform.position = ⟨20, 1, 20⟩)) :=
  have hreach : ReachableWithTicks sampleKeys sampleMovement 1 forwardsHeldTicked :=
    ReachableWithTicks.tick (s := forwardsHeld) sockDone
      (ReachableWithTicks.command (c := .PlayerInput 0 1 0 0)
        (s := afterRun 1 [.Connect 1 1001]) sockDone
        (ReachableWithTicks.command (c := .Connect 1 1001) (s := Server.Server 1) sockDone
          ReachableWithTicks.init rfl)
        rfl)
      rfl
  ⟨hreach, by decide, C16_world_entity_untouched sampleKeys sampleMovement 1 _ hreach⟩

/-- C16 as stated fails for payload slot indices outside `[0, maxConnections)`.
Capacity 1, payload index 2 (the index of the world entity): `handleDisconnect`
writes the status table at index 2 and `handleKeyInput` writes the session table
at index 2, both outside the one-entry tables, so neither command leaves a state
in which the world entity is known to be intact (the statements that follow in
the source are `m_entities[2].alive = false` and the writes to
`m_entities[2].transform.rotation`). -/
theorem C16_counterexample :
    (Server.Server 1).m_maxConnections + 1 = 2 ∧
    dispatch sockDone (Server.Server 1) (.Disconnect 2) = .fault (.statusOutOfRange 2) [] ∧
    dispatch sockDone (Server.Server 1) (.PlayerInput 2 0 5 5) =
      .fault (.sessionOutOfRange 2) [] ∧
    (∀ s1 sent, dispatch sockDone (Server.Server 1) (.Disconnect 2) ≠ .done s1 sent) ∧
    (∀ s1 sent, dispatch sockDone (Server.Server 1) (.PlayerInput 2 0 5 5) ≠ .done s1 sent) :=
  ⟨rfl, rfl, rfl, fun _ _ h => (by cases h), fun _ _ h => (by cases h)⟩

/-- C17, amended. The handlers use the payload slot index as it is, without a
check. On tables sized to the capacity: for a slot index in
`[0, maxConnections)` `handleKeyInput` and `handleDisconnect` run to completion
and touch the session, status and entity tables only at that index (every other
entry of every table is unchanged); for a slot index outside that range
`handleKeyInput` indexes the session table and `handleDisconnect` the status
table at that out-of-range position, which ends the handler with a fault. -/
theorem C17_handlers_use_payload_index_unchecked (N : Nat) (sock : Datagram → SocketStatus)
    (s : Server) (client keyState : Nat) (rx ry : Scalar) (hs : sized N s) :
    (client < N →
      (∃ s1 : Server, handleKeyInput s client keyState rx ry = .done s1 [] ∧
        s1.m_clientStatuses = s.m_clientStatuses ∧
        s1.m_connections = s.m_connections ∧ s1.m_aliveEntities = s.m_aliveEntities ∧
        ∀ j, j ≠ client →
          s1.m_clientSessions[j]? = s.m_clientSessions[j]? ∧
          s1.m_entities[j]? = s.m_entities[j]?) ∧
      (∃ (s1 : Server) (sent : List Datagram), handleDisconnect sock s client = .done s1 sent ∧
        s1.m_clientSessions = s.m_clientSessions ∧
        ∀ j, j ≠ client →
          s1.m_clientStatuses[j]? = s.m_clientStatuses[j]? ∧
          s1.m_entities[j]? = s.m_entities[j]?)) ∧
    (N ≤ client →
      handleKeyInput s client keyState rx ry = .fault (.sessionOutOfRange client) [] ∧
      handleDisconnect sock s client = .fault (.statusOutOfRange client) []) := by
  obtain ⟨h0, h1, h2, h3⟩ := hs
  constructor
  · intro hc
    have hs1 : client < s.m_clientSessions.length := by omega
    have hs3 : client < s.m_entities.length := by omega
    constructor
    · refine ⟨withInput s client keyState rx ry s.m_clientSessions[client] s.m_entities[client],
        ?_, rfl, rfl, rfl, ?_⟩
      · simp only [handleKeyInput, hs1, hs3, dite_true]
        rfl
      · intro j hj
        simp [withInput, List.getElem?_set_ne (Ne.symm hj)]
    · obtain ⟨entity, _, heq⟩ :=
        handleDisconnect_raw sock s client (by omega) (by omega) (by omega) (by omega)
      refine ⟨_, _, heq, rfl, ?_⟩
      intro j hj
      simp [dropSlot, List.getElem?_set_ne (Ne.symm hj)]
  · intro hc
    have hs1 : ¬ client < s.m_clientSessions.length := by omega
    have hs2 : ¬ client < s.m_clientStatuses.length := by omega
    constructor
    · simp only [handleKeyInput, hs1, dite_false]
    · simp only [handleDisconnect, hs2, if_false]

theorem C17_handlers_use_payload_index_unchecked_witness :
    sized 3 sampleServer ∧
    handleKeyInput sampleServer 3 1 0 0 = .fault (.sessionOutOfRange 3) [] ∧
    ((1 < 3 →
      (∃ s1 : Server, handleKeyInput sampleServer 1 9 7 8 = .done s1 [] ∧
        s1.m_clientStatuses = sampleServer.m_clientStatuses ∧
        s1.m_connections = sampleServer.m_connections ∧
        s1.m_aliveEntities = sampleServer.m_aliveEntities ∧
        ∀ j, j ≠ 1 →
          s1.m_clientSessions[j]? = sampleServer.m_clientSessions[j]? ∧
          s1.m_entities[j]? = sampleServer.m_entities[j]?) ∧
      (∃ (s1 : Server) (sent : List Datagram),
        handleDisconnect sockDone sampleServer 1 = .done s1 sent ∧
        s1.m_clientSessions = sampleServer.m_clientSessions ∧
        ∀ j, j ≠ 1 →
          s1.m_clientStatuses[j]? = sampleServer.m_clientStatuses[j]? ∧
          s1.m_entities[j]? = sampleServer.m_entities[j]?)) ∧
    (3 ≤ 1 →
      handleKeyInput sampleServer 1 9 7 8 = .fault (.sessionOutOfRange (1 : Nat)) [] ∧
      handleDisconnect sockDone sampleServer 1 = .fault (.statusOutOfRange (1 : Nat)) [])) :=
  ⟨⟨rfl, rfl, rfl, rfl⟩, rfl,
    C17_handlers_use_payload_index_unchecked 3 sockDone sampleServer 1 9 7 8
      ⟨rfl, rfl, rfl, rfl⟩⟩

/-- C17 as stated fails: on a server of capacity 1 a PlayerInput or Disconnect
packet that carries slot index 1 is not ignored. `handleKeyInput` indexes the
session table and `handleDisconnect` the status table at index 1, outside the
one-entry tables, instead of leaving the state untouched. -/
theorem C17_counterexample :
    (Server.Server 1).m_clientSessions.length = 1 ∧
    (Server.Server 1).m_clientStatuses.length = 1 ∧
    handleKeyInput (Server.Server 1) 1 1 0 0 = .fault (.sessionOutOfRange 1) [] ∧
    handleDisconnect sockDone (Server.Server 1) 1 = .fault (.statusOutOfRange 1) [] ∧
    handleKeyInput (Server.Server 1) 1 1 0 0 ≠ .done (Server.Server 1) [] ∧
    handleDisconnect sockDone (Server.Server 1) 1 ≠ .done (Server.Server 1) [] :=
  ⟨rfl, rfl, rfl, rfl, by decide, by decide⟩

/-- C19 fails on the code. Capacity 1: client (1, 1001) connects, sends the
Forwards key (key state 1) and disconnects; then client (2, 1002) connects and
is accepted into slot 0. The accepting code writes the address and the port of
the session but not its key state, so slot 0 still holds key state 1 (it would
hold 0 had the previous client sent 0), and on the next tick the new client's
entity is moved forwards although that client has sent no input. -/
theorem C19_key_state_is_carried_over_on_reconnect :
    leftWithKeyHeld.m_clientSessions = [⟨1, 1001, 1⟩] ∧
    leftWithNoKey.m_clientSessions = [⟨1, 1001, 0⟩] ∧
    handleIncomingConnection sockDone leftWithKeyHeld 2 1002 =
      .done (afterRun 1 [.Connect 1 1001, .PlayerInput 0 1 0 0, .Disconnect 0, .Connect 2 1002])
        [⟨.ConnectRequestResult .Success [0, 1], 2, 1002⟩, ⟨.PlayerJoin 0, 2, 1002⟩] ∧
    (afterRun 1 [.Connect 1 1001, .PlayerInput 0 1 0 0, .Disconnect 0,
      .Connect 2 1002]).m_clientSessions = [⟨2, 1002, 1⟩] ∧
    (afterRun 1 [.Connect 1 1001, .PlayerInput 0 0 0 0, .Disconnect 0,
      .Connect 2 1002]).m_clientSessions = [⟨2, 1002, 0⟩] ∧
    (updatePlayers sampleKeys sampleMovement
        (afterRun 1 [.Connect 1 1001, .PlayerInput 0 1 0 0, .Disconnect 0,
          .Connect 2 1002])).map (fun s1 => s1.m_entities.map (fun e => e.transform.position)) =
      .ok [⟨10, 0, 11⟩, ⟨0, 0, 0⟩, ⟨20, 1, 20⟩] ∧
    (updatePlayers sampleKeys sampleMovement
        (afterRun 1 [.Connect 1 1001, .PlayerInput 0 0 0 0, .Disconnect 0,
          .Connect 2 1002])).map (fun s1 => s1.m_entities.map (fun e => e.transform.position)) =
      .ok [⟨10, 0, 10⟩, ⟨0, 0, 0⟩, ⟨20, 1, 20⟩] :=
  ⟨rfl, rfl, rfl, rfl, rfl, rfl, rfl⟩

set_option maxRecDepth 100000 in
/-- C7 as stated fails for a capacity that does not fit one byte. On the freshly
constructed server of capacity 256 a Connect from (1, 1001) meets every
condition of the claim (guard passed, counter 0 below capacity, `findEmptySlot`
returns 0) and is accepted into slot 0, but the reply is
`ConnectRequestResult{Success, 0, 0}`: the capacity is cast to 8 bits. On
capacity 257 the reply is `ConnectRequestResult{Success, 0, 1}` and
`PlayerJoin{0}` is moreover handed to the socket twice for slot 0, the only
Connected slot, because the broadcast passes its loop index 256 to
`sendToClient` as the 8-bit index 0. -/
theorem C7_counterexample :
    notInTable (Server.Server 256) 1 1001 ∧
    (Server.Server 256).m_connections < ((Server.Server 256).m_maxConnections : Int) ∧
    findEmptySlot (Server.Server 256) = .ok ((0 : Nat) : Int) ∧
    handleIncomingConnection sockDone (Server.Server 256) 1 1001 =
      .done (firstAccepted 256 1 1001)
        [⟨.ConnectRequestResult .Success [0, 0], 1, 1001⟩, ⟨.PlayerJoin 0, 1, 1001⟩] ∧
    notInTable (Server.Server 257) 1 1001 ∧
    (Server.Server 257).m_connections < ((Server.Server 257).m_maxConnections : Int) ∧
    findEmptySlot (Server.Server 257) = .ok ((0 : Nat) : Int) ∧
    handleIncomingConnection sockDone (Server.Server 257) 1 1001 =
      .done (firstAccepted 257 1 1001)
        [⟨.ConnectRequestResult .Success [0, 1], 1, 1001⟩, ⟨.PlayerJoin 0, 1, 1001⟩,
          ⟨.PlayerJoin 0, 1, 1001⟩] ∧
    connectedSlots (firstAccepted 257 1 1001) = [0] :=
  ⟨notInTable_construct _ _ _ (by decide), by decide, rfl,
    handleIncomingConnection_first_le sockDone 255 1 1001 (by decide) (by decide),
    notInTable_construct _ _ _ (by decide), by decide, rfl,
    handleIncomingConnection_first_wide sockDone 1 1001 (by decide),
    connectedSlots_firstAccepted 256 1 1001⟩

set_option maxRecDepth 100000 in
/-- C8 as stated fails for a capacity that does not fit one byte. Capacity 257
with slots 0 and 256 Connected: `handleDisconnect` for the Connected slot 0
hands nothing to the socket, although slot 256 is still Connected afterwards and
the claim has `PlayerLeave{0}` sent to it, at (257, 1000). The broadcast reaches
`sendToClient` only with the 8-bit indices 0 to 255 (its loop index 256 becomes
0), never with 256. -/
theorem C8_counterexample :
    highSlots.m_clientSessions.length = highSlots.m_maxConnections ∧
    highSlots.m_clientStatuses.length = highSlots.m_maxConnections ∧
    highSlots.m_entities.length = highSlots.m_maxConnections + 2 ∧
    highSlots.m_clientStatuses[0]? = some ClientStatus.Connected ∧
    handleDisconnect sockDone highSlots 0 =
      .done (dropSlot highSlots 0 ⟨true, ⟨⟨10, 0, 10⟩, ⟨0, 0⟩⟩⟩) [] ∧
    connectedSlots (dropSlot highSlots 0 ⟨true, ⟨⟨10, 0, 10⟩, ⟨0, 0⟩⟩⟩) = [256] ∧
    toConnected (dropSlot highSlots 0 ⟨true, ⟨⟨10, 0, 10⟩, ⟨0, 0⟩⟩⟩) (Packet.PlayerLeave 0) =
      [⟨Packet.PlayerLeave 0, 257, 1000⟩] :=
  ⟨rfl, rfl, rfl, rfl, handleDisconnect_highSlots sockDone, connectedSlots_highSlots_dropped _,
    toConnected_highSlots_dropped _ _⟩

/-- C18 as stated fails for a capacity that does not fit one byte. Capacity 257
after one Connect, with the client in slot 0: `sendToAllClients` hands the
packet to the socket twice for that one Connected slot, once for loop index 0
and once for loop index 256, which reaches `sendToClient` as the 8-bit index
0. -/
theorem C18_counterexample :
    ReachableBy anyCommand 257 (firstAccepted 257 1 1001) ∧
    (firstAccepted 257 1 1001).m_maxConnections = 257 ∧
    (firstAccepted 257 1 1001).m_clientSessions.length = 257 ∧
    (firstAccepted 257 1 1001).m_clientStatuses.length = 257 ∧
    connectedSlots (firstAccepted 257 1 1001) = [0] ∧
    sendToAllClients sockDone (firstAccepted 257 1 1001) (Packet.PlayerLeave 7) =
      ([⟨Packet.PlayerLeave 7, 1, 1001⟩, ⟨Packet.PlayerLeave 7, 1, 1001⟩], none) :=
  ⟨ReachableBy.step (c := .Connect 1 1001) sockDone ReachableBy.init trivial
      (handleIncomingConnection_first_wide sockDone 1 1001 (by decide)),
    rfl, (sized_firstAccepted 257 1 1001).2.1, (sized_firstAccepted 257 1 1001).2.2.1,
    connectedSlots_firstAccepted 256 1 1001,
    sendToAllClients_firstAccepted sockDone 1 1001 _⟩

end server
